import Mathlib

/-!
Verification of the sensitive-data filtering engine of the cora-cli
repository (Go). The Go sources are shallowly embedded: Go
`map[string]interface{}` values become association lists over a generic
JSON value type `JValue` (the filter treats maps as unordered; list order
stands in for Go's iteration order and none of the verified properties
depend on it), Go slices become `List`, Go `*T`/nilable values become
`Option`, and the JSON parse/serialize boundary of `Filter`/`FilterPlan`
is dropped (the functions act directly on the parsed document structures).
Counters are carried exactly where the Go code increments them.
-/

namespace Cora

/-- Generic JSON value tree, the embedding of Go `interface{}` as produced
by `encoding/json` (`nil`, `bool`, number, `string`, `[]interface{}`,
`map[string]interface{}`). Numbers are modelled as `Int`: no verified
property inspects numeric values. -/
inductive JValue where
  | null : JValue
  | bool (b : Bool) : JValue
  | num (n : Int) : JValue
  | str (s : String) : JValue
  | arr (items : List JValue) : JValue
  | obj (fields : List (String × JValue)) : JValue
  deriving Repr

/-- A single ASCII quote character, used in audit reason strings. -/
def sq : String := "\x27"

/-! ## internal/filter/patterns.go -/

/-- `DefaultOmitResourceTypes` from patterns.go: resource types omitted
entirely from state uploads. -/
def DefaultOmitResourceTypes : List String :=
  ["aws_secretsmanager_secret_version", "aws_ssm_parameter",
   "random_password", "random_string",
   "tls_private_key", "acme_certificate", "tls_self_signed_cert",
   "tls_locally_signed_cert",
   "vault_generic_secret", "vault_kv_secret", "vault_kv_secret_v2",
   "azurerm_key_vault_secret", "azurerm_key_vault_key",
   "azurerm_key_vault_certificate",
   "google_secret_manager_secret_version"]

/-- `DefaultOmitAttributes` from patterns.go: attribute name patterns
omitted from resource attributes. -/
def DefaultOmitAttributes : List String :=
  ["password", "master_password", "admin_password", "root_password",
   "db_password",
   "secret", "secret_string", "secret_binary", "api_key", "api_secret",
   "token", "auth_token", "access_token", "refresh_token",
   "private_key", "private_key_pem", "private_key_openssh",
   "ssh_private_key", "access_key", "secret_key", "secret_access_key",
   "credential", "credentials", "connection_string", "connection_url",
   "certificate_pem", "certificate_chain", "issuer_pem",
   "sensitive_value", "encrypted_value"]

/-- ASCII lowercasing of one character, the per-byte body of Go
`toLowerCase` (`if c >= 'A' && c <= 'Z' { c += 'a' - 'A' }`). -/
def lowerChar (c : Char) : Char :=
  if 'A' ≤ c ∧ c ≤ 'Z' then Char.ofNat (c.toNat + 32) else c

/-- `toLowerCase` from patterns.go: simple ASCII lowercasing. The Go code
walks bytes; the embedding walks characters, which agrees on ASCII input
and, like the source, leaves everything outside `A`–`Z` untouched. -/
def toLowerCase (s : String) : String :=
  String.mk (s.data.map lowerChar)

/-- `containsIgnoreCase` from patterns.go: windowed substring test.
Despite its name it compares its arguments literally; its comment requires
both to be "already lowercase". -/
def containsIgnoreCase (s substr : String) : Bool :=
  let sl := s.data
  let pl := substr.data
  if pl.length > sl.length then false
  else (List.range (sl.length - pl.length + 1)).any
    (fun i => (sl.drop i).take pl.length == pl)

/-- `AttributeMatchingPattern` from patterns.go: first pattern in list
order that matches the attribute name, if any. Note the source lowercases
`attrName` but passes each pattern to `containsIgnoreCase` unchanged. -/
def AttributeMatchingPattern (attrName : String) (patterns : List String) :
    String × Bool :=
  let lowerAttr := toLowerCase attrName
  match patterns.find? (fun p => containsIgnoreCase lowerAttr p) with
  | some p => (p, true)
  | none => ("", false)

/-- `AttributeContainsPattern` from patterns.go. -/
def AttributeContainsPattern (attrName : String) (patterns : List String) :
    Bool :=
  (AttributeMatchingPattern attrName patterns).2

/-- `ResourceTypeMatches` from patterns.go: exact, case-sensitive
membership test. -/
def ResourceTypeMatches (resourceType : String) (types : List String) :
    Bool :=
  types.any (fun t => resourceType == t)

/-! ## config.go (project configuration and policy merging) -/

/-- `FilteringConfigSection` from config.go. The two trailing booleans are
pointers in Go (`nil` = not specified), hence `Option Bool`. -/
structure FilteringConfigSection where
  OmitResourceTypes : List String
  OmitAttributes : List String
  PreserveAttributes : List String
  HonorTerraformSensitive : Option Bool
  OmitDataSources : Option Bool

/-- `FilterConfig` from config.go: the parsed `.cora.yaml` document. -/
structure FilterConfig where
  Version : Int
  Filtering : FilteringConfigSection

/-- `MergedConfig` from config.go: the effective filtering policy. -/
structure MergedConfig where
  OmitResourceTypes : List String
  OmitAttributes : List String
  PreserveAttributes : List String
  HonorTerraformSensitive : Bool
  OmitDataSources : Bool
  PlatformOmitResourceTypes : List String
  PlatformOmitAttributes : List String

/-- `GetMergedConfig` from config.go, taking the outcome of the (I/O)
`LoadConfig` call as its argument: `none` when no project file was found,
`some cfg` for a successfully parsed file. Returns the merged policy and
the provenance label. -/
def GetMergedConfig (cfg : Option FilterConfig) : MergedConfig × String :=
  let merged : MergedConfig :=
    { OmitResourceTypes := DefaultOmitResourceTypes
      OmitAttributes := DefaultOmitAttributes
      PreserveAttributes := []
      HonorTerraformSensitive := true
      OmitDataSources := true
      PlatformOmitResourceTypes := []
      PlatformOmitAttributes := [] }
  match cfg with
  | none => (merged, "defaults")
  | some c =>
    let m1 := if c.Filtering.OmitResourceTypes.length > 0 then
        { merged with OmitResourceTypes :=
            merged.OmitResourceTypes ++ c.Filtering.OmitResourceTypes }
      else merged
    let m2 := if c.Filtering.OmitAttributes.length > 0 then
        { m1 with OmitAttributes :=
            m1.OmitAttributes ++ c.Filtering.OmitAttributes }
      else m1
    let m3 := if c.Filtering.PreserveAttributes.length > 0 then
        { m2 with PreserveAttributes := c.Filtering.PreserveAttributes }
      else m2
    let m4 := match c.Filtering.HonorTerraformSensitive with
      | some b => { m3 with HonorTerraformSensitive := b }
      | none => m3
    let m5 := match c.Filtering.OmitDataSources with
      | some b => { m4 with OmitDataSources := b }
      | none => m4
    (m5, ".cora.yaml")

/-- `MergeWithPlatformSettings` from config.go: platform pattern/type
lists are appended to the merged lists and also recorded separately for
attribution. -/
def MergeWithPlatformSettings (m : MergedConfig)
    (additionalTypes additionalAttributes : List String) : MergedConfig :=
  let m1 := if additionalTypes.length > 0 then
      { m with PlatformOmitResourceTypes := additionalTypes
               OmitResourceTypes := m.OmitResourceTypes ++ additionalTypes }
    else m
  if additionalAttributes.length > 0 then
    { m1 with PlatformOmitAttributes := additionalAttributes
              OmitAttributes := m1.OmitAttributes ++ additionalAttributes }
  else m1

/-- The fallback `MergedConfig` literal built in cmd/upload.go (`runUpload`)
and cmd/review.go (`runReview`) when `GetMergedConfig` returns an error
(for example a malformed `.cora.yaml`). The Go struct literal sets only
four fields; every other field takes Go's zero value, so in particular
`OmitDataSources` is `false`. -/
def fallbackFilterConfig : MergedConfig :=
  { OmitResourceTypes := DefaultOmitResourceTypes
    OmitAttributes := DefaultOmitAttributes
    PreserveAttributes := []
    HonorTerraformSensitive := true
    OmitDataSources := false
    PlatformOmitResourceTypes := []
    PlatformOmitAttributes := [] }

/-! ## filter.go (state filtering) -/

/-- `OmittedField` from filter.go: one redaction decision. -/
structure OmittedField where
  Path : String
  Reason : String
  «Type» : String
  FromPlatform : Bool
  deriving Repr, DecidableEq

/-- `FilterSummary` from filter.go. -/
structure FilterSummary where
  TotalResources : Nat
  OmittedResources : Nat
  TotalAttributes : Nat
  OmittedAttributes : Nat
  deriving Repr, DecidableEq

/-- `Instance` from filter.go: one resource instance. `IndexKey` is a Go
`interface{}` that may be absent (`nil`). -/
structure Instance where
  IndexKey : Option JValue
  Status : String
  SchemaVersion : Int
  Attributes : List (String × JValue)
  SensitiveAttributes : List JValue
  Private : String
  Dependencies : List String
  CreateBeforeDestroy : Bool

/-- `Resource` from filter.go. -/
structure Resource where
  Module : String
  Mode : String
  «Type» : String
  Name : String
  Provider : String
  Instances : List Instance

/-- `TerraformState` from filter.go. `Outputs` is a nilable Go map. -/
structure TerraformState where
  Version : Int
  TerraformVersion : String
  Serial : Int
  Lineage : String
  Outputs : Option (List (String × JValue))
  Resources : List Resource

/-- The audit string `fmt.Sprintf("matches pattern '%s'", p)`. -/
def patternReason (p : String) : String :=
  "matches pattern " ++ sq ++ p ++ sq

/-- The audit string `fmt.Sprintf("resource type '%s' is in omit list", t)`. -/
def typeReason (t : String) : String :=
  "resource type " ++ sq ++ t ++ sq ++ " is in omit list"

/-- `isPreserved` from filter.go: `strings.EqualFold` comparison of the
attribute name against each preserve pattern. `EqualFold` is modelled as
equality after ASCII lowercasing (the source's own `toLowerCase` has ASCII
scope as well). -/
def isPreserved (attrName : String) (preservePatterns : List String) :
    Bool :=
  preservePatterns.any (fun p => toLowerCase attrName == toLowerCase p)

mutual

/-- `filterAttributes` from filter.go: the per-key decision chain
(preserve, platform pattern, project/default pattern, provider sensitivity
marker) followed by recursion into object and array values. Omissions of
the current key precede omissions of later keys, as in the source's
append order. The source's `attrs == nil` early return coincides with the
empty-list case. -/
def filterAttributes : List (String × JValue) → String → MergedConfig →
    List String → List (String × JValue) × List OmittedField
  | [], _, _, _ => ([], [])
  | (key, value) :: rest, basePath, config, terraformSensitive =>
    let attrPath := basePath ++ "." ++ key
    let restR := filterAttributes rest basePath config terraformSensitive
    if isPreserved key config.PreserveAttributes then
      ((key, value) :: restR.1, restR.2)
    else if (AttributeMatchingPattern key config.PlatformOmitAttributes).2 then
      (restR.1,
       ⟨attrPath,
        patternReason (AttributeMatchingPattern key config.PlatformOmitAttributes).1,
        "attribute", true⟩ :: restR.2)
    else if (AttributeMatchingPattern key config.OmitAttributes).2 then
      (restR.1,
       ⟨attrPath,
        patternReason (AttributeMatchingPattern key config.OmitAttributes).1,
        "attribute", false⟩ :: restR.2)
    else if config.HonorTerraformSensitive && terraformSensitive.contains key then
      (restR.1,
       ⟨attrPath, "marked as sensitive by Terraform", "attribute", false⟩
         :: restR.2)
    else
      match value with
      | JValue.obj fields =>
        let nested := filterAttributes fields attrPath config terraformSensitive
        ((key, JValue.obj nested.1) :: restR.1, nested.2 ++ restR.2)
      | JValue.arr items =>
        let nested := filterArrayFrom items attrPath 0 config terraformSensitive
        ((key, JValue.arr nested.1) :: restR.1, nested.2 ++ restR.2)
      | v => ((key, v) :: restR.1, restR.2)

/-- `filterArray` from filter.go, with the loop index made explicit:
object elements are filtered recursively under an indexed path, every
other element (scalars, nested arrays, nulls) is passed through
unchanged. -/
def filterArrayFrom : List JValue → String → Nat → MergedConfig →
    List String → List JValue × List OmittedField
  | [], _, _, _, _ => ([], [])
  | item :: rest, basePath, i, config, terraformSensitive =>
    let itemPath := basePath ++ "[" ++ toString i ++ "]"
    let restR := filterArrayFrom rest basePath (i + 1) config terraformSensitive
    match item with
    | JValue.obj fields =>
      let nested := filterAttributes fields itemPath config terraformSensitive
      (JValue.obj nested.1 :: restR.1, nested.2 ++ restR.2)
    | v => (v :: restR.1, restR.2)

end

/-- `filterArray` from filter.go (index starts at 0). -/
def filterArray (arr : List JValue) (basePath : String)
    (config : MergedConfig) (terraformSensitive : List String) :
    List JValue × List OmittedField :=
  filterArrayFrom arr basePath 0 config terraformSensitive

mutual

/-- `countAttributes` from filter.go: recursive map-key count. Every map
key counts once; object values and objects directly inside array values
are counted recursively; scalar array elements and arrays nested inside
arrays contribute nothing. -/
def countAttributes : List (String × JValue) → Nat
  | [] => 0
  | (_, JValue.obj fields) :: rest =>
    1 + countAttributes fields + countAttributes rest
  | (_, JValue.arr items) :: rest =>
    1 + countInArray items + countAttributes rest
  | _ :: rest => 1 + countAttributes rest

/-- The array arm of `countAttributes`: only object elements are counted
into. -/
def countInArray : List JValue → Nat
  | [] => 0
  | JValue.obj fields :: rest => countAttributes fields + countInArray rest
  | _ :: rest => countInArray rest

end

/-- The body of `parseSensitiveAttributes` for one path item: an object
`{"type": "get_attr", "value": <string>}` yields that string. -/
def getAttrName (pathItem : JValue) : Option String :=
  match pathItem with
  | JValue.obj fields =>
    match fields.lookup "type", fields.lookup "value" with
    | some (JValue.str t), some (JValue.str v) =>
      if t == "get_attr" then some v else none
    | _, _ => none
  | _ => none

/-- `parseSensitiveAttributes` from filter.go: flattens Terraform's
`sensitive_attributes` path descriptors into the set (here: list, used
only through membership) of top-level attribute names. -/
def parseSensitiveAttributes (sensitive : List JValue) : List String :=
  sensitive.foldr
    (fun item acc =>
      match item with
      | JValue.arr pathItems => pathItems.filterMap getAttrName ++ acc
      | _ => acc) []

/-- The `sensitive, ok := outputMap["sensitive"].(bool); ok && sensitive`
test in `filterOutputs`. -/
def outputMarkedSensitive (output : JValue) : Bool :=
  match output with
  | JValue.obj fields =>
    match fields.lookup "sensitive" with
    | some (JValue.bool b) => b
    | _ => false
  | _ => false

/-- `filterOutputs` from filter.go: each top-level output name is
checked against the merged omit-attribute patterns (note: not against the
platform list and not against the preserve list), then against the
provider's `sensitive: true` marker. -/
def filterOutputs : List (String × JValue) → MergedConfig →
    List (String × JValue) × List OmittedField
  | [], _ => ([], [])
  | (name, output) :: rest, config =>
    let outputPath := "outputs." ++ name
    let restR := filterOutputs rest config
    if (AttributeMatchingPattern name config.OmitAttributes).2 then
      (restR.1,
       ⟨outputPath,
        patternReason (AttributeMatchingPattern name config.OmitAttributes).1,
        "attribute", false⟩ :: restR.2)
    else if outputMarkedSensitive output then
      (restR.1,
       ⟨outputPath, "output marked as sensitive", "attribute", false⟩
         :: restR.2)
    else ((name, output) :: restR.1, restR.2)

/-- `formatResourcePath` from filter.go. -/
def formatResourcePath (r : Resource) : String :=
  if r.Module != "" then r.Module ++ "." ++ r.«Type» ++ "." ++ r.Name
  else r.«Type» ++ "." ++ r.Name

/-- Rendering of a Go `interface{}` index key with `%v`. Terraform index
keys are strings or integers; composite values are approximated (no
verified property inspects the rendering). -/
def formatIndexKey : JValue → String
  | JValue.null => "<nil>"
  | JValue.bool b => if b then "true" else "false"
  | JValue.num n => toString n
  | JValue.str s => s
  | JValue.arr _ => "[...]"
  | JValue.obj _ => "map[...]"

/-- The instance-path computation inside `Filter`: append the index key
when present, else a positional index when the resource has multiple
instances. -/
def instancePath (resourcePath : String) (numInstances : Nat) (i : Nat)
    (inst : Instance) : String :=
  match inst.IndexKey with
  | some k => resourcePath ++ "[" ++ formatIndexKey k ++ "]"
  | none =>
    if numInstances > 1 then resourcePath ++ "[" ++ toString i ++ "]"
    else resourcePath

/-- The per-instance loop inside `Filter`: filter each instance's
attributes under its instance path with that instance's parsed sensitive
markers, clear the markers, and accumulate (instances, omissions, total
attribute count of the input attributes). -/
def filterInstances (config : MergedConfig) (resourcePath : String)
    (numInstances : Nat) :
    Nat → List Instance → List Instance × List OmittedField × Nat
  | _, [] => ([], [], 0)
  | i, inst :: rest =>
    let sensitiveAttrs := parseSensitiveAttributes inst.SensitiveAttributes
    let fa := filterAttributes inst.Attributes
      (instancePath resourcePath numInstances i inst) config sensitiveAttrs
    let restR := filterInstances config resourcePath numInstances (i + 1) rest
    ({ inst with Attributes := fa.1, SensitiveAttributes := [] } :: restR.1,
     fa.2 ++ restR.2.1,
     countAttributes inst.Attributes + restR.2.2)

/-- Accumulator of the resource loop inside `Filter`, mirroring the parts
of `FilterResult` the loop mutates. -/
structure StateAcc where
  resources : List Resource
  omissions : List OmittedField
  omittedResources : Nat
  omittedAttributes : Nat
  totalAttributes : Nat

/-- The resource loop of `Filter`: per resource, the data-source check,
the platform omit-type check, the project/default omit-type check (in that
order, first hit drops the resource wholesale with one resource-kind
omission record), then instance filtering for surviving resources. -/
def filterResources (config : MergedConfig) : List Resource → StateAcc
  | [] => ⟨[], [], 0, 0, 0⟩
  | resource :: rest =>
    let acc := filterResources config rest
    let resourcePath := formatResourcePath resource
    if config.OmitDataSources && resource.Mode == "data" then
      { acc with
        omissions := ⟨resourcePath, "data source lookup omitted",
          "resource", false⟩ :: acc.omissions
        omittedResources := acc.omittedResources + 1 }
    else if ResourceTypeMatches resource.«Type» config.PlatformOmitResourceTypes then
      { acc with
        omissions := ⟨resourcePath, typeReason resource.«Type»,
          "resource", true⟩ :: acc.omissions
        omittedResources := acc.omittedResources + 1 }
    else if ResourceTypeMatches resource.«Type» config.OmitResourceTypes then
      { acc with
        omissions := ⟨resourcePath, typeReason resource.«Type»,
          "resource", false⟩ :: acc.omissions
        omittedResources := acc.omittedResources + 1 }
    else
      let ir := filterInstances config resourcePath
        resource.Instances.length 0 resource.Instances
      { resources := { resource with Instances := ir.1 } :: acc.resources
        omissions := ir.2.1 ++ acc.omissions
        omittedResources := acc.omittedResources
        omittedAttributes := ir.2.1.length + acc.omittedAttributes
        totalAttributes := ir.2.2 + acc.totalAttributes }

/-- `FilterResult` from filter.go, with the filtered document kept as a
structure instead of serialized bytes. -/
structure FilterResult where
  FilteredState : TerraformState
  Omissions : List OmittedField
  Summary : FilterSummary

/-- `Filter` from filter.go, acting on the parsed state document: filter
the resources, then the outputs when present, and assemble the summary
with the counters exactly as the source accumulates them. -/
def Filter (state : TerraformState) (config : MergedConfig) : FilterResult :=
  let acc := filterResources config state.Resources
  let outs : Option (List (String × JValue)) × List OmittedField :=
    match state.Outputs with
    | some outputs =>
      let fo := filterOutputs outputs config
      (some fo.1, fo.2)
    | none => (none, [])
  { FilteredState :=
      { state with Resources := acc.resources, Outputs := outs.1 }
    Omissions := acc.omissions ++ outs.2
    Summary :=
      { TotalResources := state.Resources.length
        OmittedResources := acc.omittedResources
        TotalAttributes := acc.totalAttributes
        OmittedAttributes := acc.omittedAttributes + outs.2.length } }

/-! ## filter.go (plan filtering) -/

/-- `Change` from filter.go. `Before`/`After` are nilable Go maps; the
sensitivity markers are untyped `interface{}` values (`nil` = absent,
modelled as `JValue.null`). -/
structure Change where
  Actions : List String
  Before : Option (List (String × JValue))
  After : Option (List (String × JValue))
  AfterUnknown : Option (List (String × JValue))
  BeforeSensitive : JValue
  AfterSensitive : JValue

/-- `ResourceChange` from filter.go. The `Change` field is a nilable
pointer. -/
structure ResourceChange where
  Address : String
  ModuleAddress : String
  Mode : String
  «Type» : String
  Name : String
  ProviderName : String
  Change : Option Change

/-- `PlannedResource` from filter.go. -/
structure PlannedResource where
  Address : String
  Mode : String
  «Type» : String
  Name : String
  ProviderName : String
  SchemaVersion : Int
  Values : List (String × JValue)
  SensitiveValues : JValue

/-- `PlannedModule` from filter.go: a module with recursively nested
child modules (an inductive because Lean structures cannot nest
recursively). -/
inductive PlannedModule where
  | mk : List PlannedResource → List PlannedModule → String → PlannedModule

/-- The `Resources` field of `PlannedModule`. -/
def PlannedModule.Resources : PlannedModule → List PlannedResource
  | .mk r _ _ => r

/-- The `ChildModules` field of `PlannedModule`. -/
def PlannedModule.ChildModules : PlannedModule → List PlannedModule
  | .mk _ c _ => c

/-- The `Address` field of `PlannedModule`. -/
def PlannedModule.Address : PlannedModule → String
  | .mk _ _ a => a

/-- `PlannedValues` from filter.go. -/
structure PlannedValues where
  Outputs : Option (List (String × JValue))
  RootModule : Option PlannedModule

/-- `TerraformPlan` from filter.go. `Configuration`,
`RelevantAttributes`, `Checks` and `Timestamp` are pass-through fields. -/
structure TerraformPlan where
  FormatVersion : String
  TerraformVersion : String
  Variables : Option (List (String × JValue))
  PlannedValues : Option PlannedValues
  ResourceChanges : List ResourceChange
  PriorState : Option TerraformState
  Configuration : Option (List (String × JValue))
  RelevantAttributes : List JValue
  Checks : List JValue
  Timestamp : String

/-- The `extractSensitive` closure of `parseSensitiveFromPlan`: keys of an
object value whose entry is the boolean `true`. -/
def extractSensitive (v : JValue) : List String :=
  match v with
  | JValue.obj fields =>
    fields.foldr
      (fun kv acc =>
        match kv.2 with
        | JValue.bool true => kv.1 :: acc
        | _ => acc) []
  | _ => []

/-- `parseSensitiveFromPlan` from filter.go: union (as a membership list)
of the keys flagged `true` in the before/after sensitivity markers. -/
def parseSensitiveFromPlan (beforeSensitive afterSensitive : JValue) :
    List String :=
  extractSensitive beforeSensitive ++ extractSensitive afterSensitive

/-- The resource_changes loop of `FilterPlan`: the same resource-level
decision order as the state filter (data source, platform omit-type,
project/default omit-type), then filtering of the surviving change's
`before`/`after` trees. Accumulates (changes, omissions,
omittedResources, omittedAttributes, totalAttributes); per the source,
`totalAttributes` counts the change trees after filtering. -/
def filterResourceChanges (config : MergedConfig) :
    List ResourceChange →
    List ResourceChange × List OmittedField × Nat × Nat × Nat
  | [] => ([], [], 0, 0, 0)
  | rc :: rest =>
    let acc := filterResourceChanges config rest
    if config.OmitDataSources && rc.Mode == "data" then
      (acc.1,
       ⟨rc.Address, "data source lookup omitted", "resource", false⟩
         :: acc.2.1,
       acc.2.2.1 + 1, acc.2.2.2.1, acc.2.2.2.2)
    else if ResourceTypeMatches rc.«Type» config.PlatformOmitResourceTypes then
      (acc.1,
       ⟨rc.Address, typeReason rc.«Type», "resource", true⟩ :: acc.2.1,
       acc.2.2.1 + 1, acc.2.2.2.1, acc.2.2.2.2)
    else if ResourceTypeMatches rc.«Type» config.OmitResourceTypes then
      (acc.1,
       ⟨rc.Address, typeReason rc.«Type», "resource", false⟩ :: acc.2.1,
       acc.2.2.1 + 1, acc.2.2.2.1, acc.2.2.2.2)
    else
      match rc.Change with
      | none => (rc :: acc.1, acc.2.1, acc.2.2.1, acc.2.2.2.1, acc.2.2.2.2)
      | some ch =>
        let sensitiveAttrs :=
          parseSensitiveFromPlan ch.BeforeSensitive ch.AfterSensitive
        let beforeR : Option (List (String × JValue)) × List OmittedField × Nat :=
          match ch.Before with
          | some b =>
            let f := filterAttributes b (rc.Address ++ ".before") config
              sensitiveAttrs
            (some f.1, f.2, countAttributes f.1)
          | none => (none, [], 0)
        let afterR : Option (List (String × JValue)) × List OmittedField × Nat :=
          match ch.After with
          | some a =>
            let f := filterAttributes a (rc.Address ++ ".after") config
              sensitiveAttrs
            (some f.1, f.2, countAttributes f.1)
          | none => (none, [], 0)
        let ch2 := { ch with Before := beforeR.1, After := afterR.1,
                             BeforeSensitive := JValue.null,
                             AfterSensitive := JValue.null }
        ({ rc with Change := some ch2 } :: acc.1,
         beforeR.2.1 ++ afterR.2.1 ++ acc.2.1,
         acc.2.2.1,
         beforeR.2.1.length + afterR.2.1.length + acc.2.2.2.1,
         beforeR.2.2 + afterR.2.2 + acc.2.2.2.2)

/-- The per-resource loop of `filterPlannedModule`: identical resource
decision order, then attribute filtering of the `values` tree with the
resource's own sensitivity markers (cleared afterwards). Accumulates
(resources, omissions, omittedResources, omittedAttributes). -/
def filterPlannedResources (config : MergedConfig) :
    List PlannedResource →
    List PlannedResource × List OmittedField × Nat × Nat
  | [] => ([], [], 0, 0)
  | pr :: rest =>
    let acc := filterPlannedResources config rest
    if config.OmitDataSources && pr.Mode == "data" then
      (acc.1,
       ⟨pr.Address, "data source lookup omitted", "resource", false⟩
         :: acc.2.1,
       acc.2.2.1 + 1, acc.2.2.2)
    else if ResourceTypeMatches pr.«Type» config.PlatformOmitResourceTypes then
      (acc.1,
       ⟨pr.Address, typeReason pr.«Type», "resource", true⟩ :: acc.2.1,
       acc.2.2.1 + 1, acc.2.2.2)
    else if ResourceTypeMatches pr.«Type» config.OmitResourceTypes then
      (acc.1,
       ⟨pr.Address, typeReason pr.«Type», "resource", false⟩ :: acc.2.1,
       acc.2.2.1 + 1, acc.2.2.2)
    else
      let sensitiveAttrs := parseSensitiveFromPlan pr.SensitiveValues JValue.null
      let f := filterAttributes pr.Values pr.Address config sensitiveAttrs
      ({ pr with Values := f.1, SensitiveValues := JValue.null } :: acc.1,
       f.2 ++ acc.2.1,
       acc.2.2.1,
       f.2.length + acc.2.2.2)

mutual

/-- `filterPlannedModule` from filter.go: filter the module's own
resources, then recurse depth-first into every child module. Returns
(module, omissions, omittedResources, omittedAttributes). -/
def filterPlannedModule (config : MergedConfig) :
    PlannedModule → PlannedModule × List OmittedField × Nat × Nat
  | PlannedModule.mk resources childModules address =>
    let rr := filterPlannedResources config resources
    let cr := filterPlannedModules config childModules
    (PlannedModule.mk rr.1 cr.1 address,
     rr.2.1 ++ cr.2.1, rr.2.2.1 + cr.2.2.1, rr.2.2.2 + cr.2.2.2)

/-- The child-module loop of `filterPlannedModule`. -/
def filterPlannedModules (config : MergedConfig) :
    List PlannedModule → List PlannedModule × List OmittedField × Nat × Nat
  | [] => ([], [], 0, 0)
  | m :: rest =>
    let mr := filterPlannedModule config m
    let restR := filterPlannedModules config rest
    (mr.1 :: restR.1, mr.2.1 ++ restR.2.1,
     mr.2.2.1 + restR.2.2.1, mr.2.2.2 + restR.2.2.2)

end

/-- The planned_values outputs loop of `filterPlannedValues`: platform
omit-attribute patterns are checked first (`fromPlatform=true`), then the
merged omit-attribute patterns; matching outputs are deleted. -/
def filterPlannedOutputs (config : MergedConfig) :
    List (String × JValue) → List (String × JValue) × List OmittedField
  | [] => ([], [])
  | (name, value) :: rest =>
    let restR := filterPlannedOutputs config rest
    if (AttributeMatchingPattern name config.PlatformOmitAttributes).2 then
      (restR.1,
       ⟨"planned_values.outputs." ++ name,
        patternReason (AttributeMatchingPattern name config.PlatformOmitAttributes).1,
        "attribute", true⟩ :: restR.2)
    else if (AttributeMatchingPattern name config.OmitAttributes).2 then
      (restR.1,
       ⟨"planned_values.outputs." ++ name,
        patternReason (AttributeMatchingPattern name config.OmitAttributes).1,
        "attribute", false⟩ :: restR.2)
    else ((name, value) :: restR.1, restR.2)

/-- `filterPlannedValues` from filter.go: root module first, then the
planned outputs. Returns (plannedValues, omissions, omittedResources,
omittedAttributes). -/
def filterPlannedValues (pv : PlannedValues) (config : MergedConfig) :
    PlannedValues × List OmittedField × Nat × Nat :=
  let mr : Option PlannedModule × List OmittedField × Nat × Nat :=
    match pv.RootModule with
    | some root =>
      let f := filterPlannedModule config root
      (some f.1, f.2.1, f.2.2.1, f.2.2.2)
    | none => (none, [], 0, 0)
  let outR : Option (List (String × JValue)) × List OmittedField :=
    match pv.Outputs with
    | some outputs =>
      let f := filterPlannedOutputs config outputs
      (some f.1, f.2)
    | none => (none, [])
  ({ Outputs := outR.1, RootModule := mr.1 },
   mr.2.1 ++ outR.2, mr.2.2.1, mr.2.2.2 + outR.2.length)

/-- `filterVariables` from filter.go: plan variables are matched by name
against the merged omit-attribute patterns only; no recursion into the
variable's value. -/
def filterVariables (config : MergedConfig) :
    List (String × JValue) → List (String × JValue) × List OmittedField
  | [] => ([], [])
  | (name, value) :: rest =>
    let restR := filterVariables config rest
    if (AttributeMatchingPattern name config.OmitAttributes).2 then
      (restR.1,
       ⟨"variables." ++ name,
        patternReason (AttributeMatchingPattern name config.OmitAttributes).1,
        "attribute", false⟩ :: restR.2)
    else ((name, value) :: restR.1, restR.2)

/-- `FilterPlan`'s result, with the filtered plan kept as a structure. -/
structure PlanFilterResult where
  FilteredPlan : TerraformPlan
  Omissions : List OmittedField
  Summary : FilterSummary

/-- `FilterPlan` from filter.go, acting on the parsed plan document:
resource changes, then planned_values, then the embedded prior state
(delegated wholesale to `Filter`, with its omissions and omitted counts
merged in), then variables. The prior-state delegation's marshal/
unmarshal round trip is the identity in this embedding. -/
def FilterPlan (plan : TerraformPlan) (config : MergedConfig) :
    PlanFilterResult :=
  let cr := filterResourceChanges config plan.ResourceChanges
  let pvR : Option PlannedValues × List OmittedField × Nat × Nat :=
    match plan.PlannedValues with
    | some pv =>
      let f := filterPlannedValues pv config
      (some f.1, f.2.1, f.2.2.1, f.2.2.2)
    | none => (none, [], 0, 0)
  let psR : Option TerraformState × List OmittedField × Nat × Nat :=
    match plan.PriorState with
    | some ps =>
      let sr := Filter ps config
      (some sr.FilteredState, sr.Omissions,
       sr.Summary.OmittedResources, sr.Summary.OmittedAttributes)
    | none => (none, [], 0, 0)
  let vR : Option (List (String × JValue)) × List OmittedField :=
    match plan.Variables with
    | some vars =>
      let f := filterVariables config vars
      (some f.1, f.2)
    | none => (none, [])
  { FilteredPlan :=
      { plan with ResourceChanges := cr.1, PlannedValues := pvR.1,
                  PriorState := psR.1, Variables := vR.1 }
    Omissions := cr.2.1 ++ pvR.2.1 ++ psR.2.1 ++ vR.2
    Summary :=
      { TotalResources := plan.ResourceChanges.length
        OmittedResources := cr.2.2.1 + pvR.2.2.1 + psR.2.2.1
        TotalAttributes := cr.2.2.2.2
        OmittedAttributes := cr.2.2.2.1 + pvR.2.2.2 + psR.2.2.2 + vR.2.length } }

/-! ## Auxiliary definitions used only to state properties -/

/-- The project filtering section carried by an optional loaded config
(the empty section when no file was found). Used to state the merge
property. -/
def projectFiltering : Option FilterConfig → FilteringConfigSection
  | some c => c.Filtering
  | none => ⟨[], [], [], none, none⟩

/-- Whether a JSON value is an object. -/
def isObjValue : JValue → Bool
  | JValue.obj _ => true
  | _ => false

/-- Input-side total attribute count of a state's resource list: the
amended C6 statement's reference value. A resource dropped by the
data-source or omit-type checks contributes nothing; a surviving resource
contributes the recursive key count of each instance's input attribute
tree. -/
def stateInputAttrTotal (config : MergedConfig) : List Resource → Nat
  | [] => 0
  | r :: rest =>
    (if config.OmitDataSources && r.Mode == "data" then 0
     else if ResourceTypeMatches r.«Type» config.PlatformOmitResourceTypes then 0
     else if ResourceTypeMatches r.«Type» config.OmitResourceTypes then 0
     else (r.Instances.map (fun inst => countAttributes inst.Attributes)).sum)
    + stateInputAttrTotal config rest

/-- Output-side total attribute count of a plan's resource_changes list:
the amended C6 statement's reference value. A surviving change
contributes the recursive key count of its before/after trees after
filtering. -/
def planFilteredAttrTotal (config : MergedConfig) : List ResourceChange → Nat
  | [] => 0
  | rc :: rest =>
    (if config.OmitDataSources && rc.Mode == "data" then 0
     else if ResourceTypeMatches rc.«Type» config.PlatformOmitResourceTypes then 0
     else if ResourceTypeMatches rc.«Type» config.OmitResourceTypes then 0
     else match rc.Change with
       | none => 0
       | some ch =>
         let sens := parseSensitiveFromPlan ch.BeforeSensitive ch.AfterSensitive
         (match ch.Before with
          | some b => countAttributes
              (filterAttributes b (rc.Address ++ ".before") config sens).1
          | none => 0) +
         (match ch.After with
          | some a => countAttributes
              (filterAttributes a (rc.Address ++ ".after") config sens).1
          | none => 0))
    + planFilteredAttrTotal config rest

/-- The shape every omission produced by attribute filtering has: kind
`attribute`, a path ending in `.key` for the omitted key, and that key is
not preserved. -/
def omShape (cfg : MergedConfig) (o : OmittedField) : Prop :=
  o.«Type» = "attribute" ∧
  ∃ p k, o.Path = p ++ "." ++ k ∧ isPreserved k cfg.PreserveAttributes = false

/-- Number of omission records of a given kind in a list. -/
def countKind (t : String) (l : List OmittedField) : Nat :=
  (l.filter (fun o => o.«Type» == t)).length

/-! ## Concrete documents and policies for counterexamples and witnesses -/

/-- A policy that both omits and preserves the name `password`, with no
other rules. -/
def cfgPreserveOmit : MergedConfig :=
  ⟨[], ["password"], ["password"], true, true, [], []⟩

/-- A state whose only content is a top-level output named `password`. -/
def stateOutputOnly : TerraformState :=
  { Version := 4, TerraformVersion := "1.5.0", Serial := 1, Lineage := "l"
    Outputs := some [("password", JValue.str "hunter2")]
    Resources := [] }

/-- A policy that omits `password` and preserves `keep`. -/
def cfgPreserveKeep : MergedConfig :=
  ⟨[], ["password"], ["keep"], true, true, [], []⟩

/-- An attribute tree whose preserved key `keep` contains a `password`
descendant. -/
def attrsPreservedSubtree : List (String × JValue) :=
  [("keep", JValue.obj [("password", JValue.str "x")])]

/-- A policy whose only rule omits attributes matching `password`. -/
def cfgOmitPassword : MergedConfig :=
  ⟨[], ["password"], [], true, true, [], []⟩

/-- A plan with a single resource change whose `before` tree consists of
one `password` key (omitted by `cfgOmitPassword`) and whose `after` is
absent. -/
def planOnePassword : TerraformPlan :=
  { FormatVersion := "1.2", TerraformVersion := "1.5.0"
    Variables := none, PlannedValues := none
    ResourceChanges :=
      [{ Address := "aws_db_instance.main", ModuleAddress := ""
         Mode := "managed", «Type» := "aws_db_instance"
         Name := "main", ProviderName := "aws"
         Change := some
           { Actions := ["delete"]
             Before := some [("password", JValue.str "x")]
             After := none, AfterUnknown := none
             BeforeSensitive := JValue.null
             AfterSensitive := JValue.null } }]
    PriorState := none, Configuration := none
    RelevantAttributes := [], Checks := [], Timestamp := "" }

/-- A state whose only resource is a data-source lookup. -/
def stateOneDataSource : TerraformState :=
  { Version := 4, TerraformVersion := "1.5.0", Serial := 1, Lineage := "l"
    Outputs := none
    Resources :=
      [{ Module := "", Mode := "data", «Type» := "aws_ami", Name := "ubuntu"
         Provider := "aws", Instances := [] }] }

/-- A policy in which the resource type `shared_type` appears in both the
platform and the project omit-type sets. -/
def cfgSharedType : MergedConfig :=
  ⟨["shared_type"], [], [], true, true, ["shared_type"], []⟩

/-- A managed resource of the doubly omitted type `shared_type`. -/
def resourceSharedType : Resource :=
  { Module := "", Mode := "managed", «Type» := "shared_type", Name := "r"
    Provider := "p", Instances := [] }

/-- A resource change of the doubly omitted type `shared_type`. -/
def changeSharedType : ResourceChange :=
  { Address := "shared_type.r", ModuleAddress := "", Mode := "managed"
    «Type» := "shared_type", Name := "r", ProviderName := "p"
    Change := none }

/-- A planned resource of the doubly omitted type `shared_type`. -/
def plannedSharedType : PlannedResource :=
  { Address := "shared_type.r", Mode := "managed", «Type» := "shared_type"
    Name := "r", ProviderName := "p", SchemaVersion := 0
    Values := [], SensitiveValues := JValue.null }

/-- An array whose second element is an array directly nested inside it,
containing an object with a `password` key. -/
def arrNestedArray : List JValue :=
  [JValue.str "scalar",
   JValue.arr [JValue.obj [("password", JValue.str "x")]]]

/-! ## Theorems -/

/-- C2 (code bug witness): at attribute name `x` and pattern list `["X"]`
the source returns found=false, although `X` is a case-insensitive
substring of `x` (both lowercase to `x`). `AttributeMatchingPattern`
lowercases the attribute name but hands each pattern to the literal
window comparison unchanged, so any pattern containing an uppercase
letter can never match, contradicting the documented case-insensitive
matching. -/
theorem C2_case_sensitivity_bug :
    AttributeMatchingPattern "x" ["X"] = ("", false) ∧
    containsIgnoreCase (toLowerCase "x") (toLowerCase "X") = true := by
  exact ⟨by decide, by decide⟩

/-- C8 (code bug witness): the fallback policy built when the project
configuration is malformed sets `OmitDataSources` to Go's zero value
`false`, while defaults-only resolution sets it to `true`; consequently a
data-source resource is kept under the fallback policy but omitted under
the default policy, so the fallback is not "the same effective policy as
defaults-only resolution". -/
theorem C8_fallback_not_defaults :
    fallbackFilterConfig.OmitDataSources = false ∧
    (GetMergedConfig none).1.OmitDataSources = true ∧
    (Filter stateOneDataSource fallbackFilterConfig).Summary.OmittedResources = 0 ∧
    (Filter stateOneDataSource (GetMergedConfig none).1).Summary.OmittedResources = 1 := by
  refine ⟨rfl, rfl, ?_, ?_⟩ <;> rfl

/-- C7: resolution followed by the platform merge yields omit lists that
are the built-in defaults with the project entries appended and the
platform entries appended, a preserve list equal to the project's
declared list (empty when no file is present), and booleans taking the
project's explicit value when set and `true` otherwise. -/
theorem C7_policy_merge :
    ∀ (cfg : Option FilterConfig) (platformTypes platformAttributes : List String),
      (MergeWithPlatformSettings (GetMergedConfig cfg).1 platformTypes
          platformAttributes).OmitResourceTypes
        = DefaultOmitResourceTypes ++ (projectFiltering cfg).OmitResourceTypes
            ++ platformTypes ∧
      (MergeWithPlatformSettings (GetMergedConfig cfg).1 platformTypes
          platformAttributes).OmitAttributes
        = DefaultOmitAttributes ++ (projectFiltering cfg).OmitAttributes
            ++ platformAttributes ∧
      (MergeWithPlatformSettings (GetMergedConfig cfg).1 platformTypes
          platformAttributes).PreserveAttributes
        = (projectFiltering cfg).PreserveAttributes ∧
      (MergeWithPlatformSettings (GetMergedConfig cfg).1 platformTypes
          platformAttributes).HonorTerraformSensitive
        = ((projectFiltering cfg).HonorTerraformSensitive.getD true) ∧
      (MergeWithPlatformSettings (GetMergedConfig cfg).1 platformTypes
          platformAttributes).OmitDataSources
        = ((projectFiltering cfg).OmitDataSources.getD true) := by
  intro cfg pt pa
  have hM : ∀ m : MergedConfig,
      (MergeWithPlatformSettings m pt pa).OmitResourceTypes
          = m.OmitResourceTypes ++ pt ∧
      (MergeWithPlatformSettings m pt pa).OmitAttributes
          = m.OmitAttributes ++ pa ∧
      (MergeWithPlatformSettings m pt pa).PreserveAttributes
          = m.PreserveAttributes ∧
      (MergeWithPlatformSettings m pt pa).HonorTerraformSensitive
          = m.HonorTerraformSensitive ∧
      (MergeWithPlatformSettings m pt pa).OmitDataSources
          = m.OmitDataSources := by
    intro m
    rcases pt with _ | ⟨t, ts⟩ <;> rcases pa with _ | ⟨a, as⟩ <;>
      simp [MergeWithPlatformSettings]
  have hG : (GetMergedConfig cfg).1.OmitResourceTypes
          = DefaultOmitResourceTypes ++ (projectFiltering cfg).OmitResourceTypes ∧
      (GetMergedConfig cfg).1.OmitAttributes
          = DefaultOmitAttributes ++ (projectFiltering cfg).OmitAttributes ∧
      (GetMergedConfig cfg).1.PreserveAttributes
          = (projectFiltering cfg).PreserveAttributes ∧
      (GetMergedConfig cfg).1.HonorTerraformSensitive
          = ((projectFiltering cfg).HonorTerraformSensitive.getD true) ∧
      (GetMergedConfig cfg).1.OmitDataSources
          = ((projectFiltering cfg).OmitDataSources.getD true) := by
    rcases cfg with _ | ⟨ver, ⟨ort, oa, pres, hts, ods⟩⟩
    · simp [GetMergedConfig, projectFiltering]
    · rcases ort with _ | ⟨x, xs⟩ <;> rcases oa with _ | ⟨y, ys⟩ <;>
        rcases pres with _ | ⟨z, zs⟩ <;> rcases hts with _ | b1 <;>
        rcases ods with _ | b2 <;>
        simp [GetMergedConfig, projectFiltering]
  obtain ⟨h1, h2, h3, h4, h5⟩ := hM (GetMergedConfig cfg).1
  obtain ⟨g1, g2, g3, g4, g5⟩ := hG
  exact ⟨by rw [h1, g1], by rw [h2, g2], by rw [h3, g3],
         by rw [h4, g4], by rw [h5, g5]⟩

/-- Array elements of `filterArrayFrom` are never dropped, and non-object
elements are passed through unchanged at their position. -/
theorem filterArrayFrom_passthrough :
    ∀ (arr : List JValue) (basePath : String) (i : Nat)
      (config : MergedConfig) (sens : List String),
      (filterArrayFrom arr basePath i config sens).1.length = arr.length ∧
      ∀ (j : Nat) (v : JValue), arr[j]? = some v → isObjValue v = false →
        (filterArrayFrom arr basePath i config sens).1[j]? = some v := by
  intro arr
  induction arr with
  | nil =>
    intro bp i cfg sens
    refine ⟨by simp [filterArrayFrom], ?_⟩
    intro j v hj
    simp at hj
  | cons hd tl ih =>
    intro bp i cfg sens
    constructor
    · cases hd <;>
        simp [filterArrayFrom, (ih bp (i + 1) cfg sens).1]
    · intro j v hj hv
      cases j with
      | zero =>
        simp at hj
        subst hj
        cases hd <;> simp_all [filterArrayFrom, isObjValue]
      | succ k =>
        simp at hj
        have := (ih bp (i + 1) cfg sens).2 k v (by simpa using hj) hv
        cases hd <;> simpa [filterArrayFrom] using this

/-- C9: during attribute filtering, array elements that are not objects
pass through unchanged: no array element is ever dropped (the filtered
array has the input's length), and every non-object element — scalars
and, in particular, arrays nested directly inside arrays, together with
any objects they contain — is emitted verbatim at its position. -/
theorem C9_array_elements_passthrough :
    ∀ (arr : List JValue) (basePath : String) (config : MergedConfig)
      (sens : List String),
      (filterArray arr basePath config sens).1.length = arr.length ∧
      ∀ (i : Nat) (v : JValue), arr[i]? = some v → isObjValue v = false →
        (filterArray arr basePath config sens).1[i]? = some v := by
  intro arr bp cfg sens
  exact filterArrayFrom_passthrough arr bp 0 cfg sens

/-- C9 witness: an array directly nested inside another array — even one
holding an object with a `password` key under a policy omitting
`password` — is emitted unchanged at its position. -/
theorem C9_witness :
    (filterArray arrNestedArray "p" cfgOmitPassword []).1[1]?
      = some (JValue.arr [JValue.obj [("password", JValue.str "x")]]) :=
  (C9_array_elements_passthrough arrNestedArray "p" cfgOmitPassword []).2 1
    (JValue.arr [JValue.obj [("password", JValue.str "x")]]) (by rfl) (by rfl)

/-- Every omission record produced by `filterAttributes` or
`filterArrayFrom`, at any nesting depth, has kind `attribute`, a path of
the form `<prefix>.<key>`, and a final key that is not preserved. -/
theorem filterAttributes_omissions_shape :
    (∀ (attrs : List (String × JValue)) (bp : String) (cfg : MergedConfig)
       (sens : List String),
       ∀ o ∈ (filterAttributes attrs bp cfg sens).2, omShape cfg o) ∧
    (∀ (items : List JValue) (bp : String) (i : Nat) (cfg : MergedConfig)
       (sens : List String),
       ∀ o ∈ (filterArrayFrom items bp i cfg sens).2, omShape cfg o) := by
  refine filterAttributes.mutual_induct
    (fun attrs bp cfg sens => ∀ o ∈ (filterAttributes attrs bp cfg sens).2, omShape cfg o)
    (fun items bp i cfg sens => ∀ o ∈ (filterArrayFrom items bp i cfg sens).2, omShape cfg o)
    ?_ ?_ ?_ ?_ ?_ ?_ ?_ ?_ ?_ ?_ ?_
  · intro bp cfg sens o ho
    simp [filterAttributes] at ho
  · intro key value rest bp cfg sens h1 ih o ho
    rw [filterAttributes.eq_def] at ho
    simp only [h1, if_true] at ho
    exact ih o ho
  · intro key value rest bp cfg sens h1 h2 ih o ho
    rw [filterAttributes.eq_def] at ho
    simp only [h1, h2, if_true, if_false, Bool.false_eq_true, List.mem_cons] at ho
    rcases ho with rfl | ho
    · exact ⟨rfl, bp, key, rfl, by simpa using h1⟩
    · exact ih o ho
  · intro key value rest bp cfg sens h1 h2 h3 ih o ho
    rw [filterAttributes.eq_def] at ho
    simp only [h1, h2, h3, if_true, if_false, Bool.false_eq_true, List.mem_cons] at ho
    rcases ho with rfl | ho
    · exact ⟨rfl, bp, key, rfl, by simpa using h1⟩
    · exact ih o ho
  · intro key value rest bp cfg sens h1 h2 h3 h4 ih o ho
    rw [filterAttributes.eq_def] at ho
    simp only [h1, h2, h3, h4, if_true, if_false, Bool.false_eq_true, List.mem_cons] at ho
    rcases ho with rfl | ho
    · exact ⟨rfl, bp, key, rfl, by simpa using h1⟩
    · exact ih o ho
  · intro key rest bp cfg sens attrPath h1 h2 h3 h4 fields ih ihf o ho
    rw [filterAttributes.eq_def] at ho
    simp only [h1, h2, h3, h4, if_true, if_false, Bool.false_eq_true, List.mem_append] at ho
    rcases ho with ho | ho
    · exact ihf o ho
    · exact ih o ho
  · intro key rest bp cfg sens attrPath h1 h2 h3 h4 items ih ihi o ho
    rw [filterAttributes.eq_def] at ho
    simp only [h1, h2, h3, h4, if_true, if_false, Bool.false_eq_true, List.mem_append] at ho
    rcases ho with ho | ho
    · exact ihi o ho
    · exact ih o ho
  · intro key rest bp cfg sens h1 h2 h3 h4 v hobj harr ih o ho
    rw [filterAttributes.eq_def] at ho
    simp only [h1, h2, h3, h4, if_true, if_false, Bool.false_eq_true] at ho
    cases v with
    | obj fields => exact absurd rfl (hobj fields)
    | arr items => exact absurd rfl (harr items)
    | null => exact ih o ho
    | bool b => exact ih o ho
    | num n => exact ih o ho
    | str s => exact ih o ho
  · intro bp i cfg sens o ho
    simp [filterArrayFrom] at ho
  · intro rest bp i cfg sens itemPath fields ih ihf o ho
    rw [filterArrayFrom.eq_def] at ho
    simp only [List.mem_append] at ho
    rcases ho with ho | ho
    · exact ihf o ho
    · exact ih o ho
  · intro rest bp i cfg sens v hobj ih o ho
    rw [filterArrayFrom.eq_def] at ho
    cases v with
    | obj fields => exact absurd rfl (hobj fields)
    | null => exact ih o ho
    | bool b => exact ih o ho
    | num n => exact ih o ho
    | str s => exact ih o ho
    | arr items => exact ih o ho

/-- Re-filtering the output of `filterAttributes`/`filterArrayFrom` with
the same policy and an empty sensitive set returns it unchanged with no
omissions. -/
theorem filter_refilter_joint :
    (∀ (attrs : List (String × JValue)) (bp : String) (cfg : MergedConfig)
       (sens : List String), ∀ bp2 : String,
       filterAttributes (filterAttributes attrs bp cfg sens).1 bp2 cfg [] =
         ((filterAttributes attrs bp cfg sens).1, [])) ∧
    (∀ (items : List JValue) (bp : String) (i : Nat) (cfg : MergedConfig)
       (sens : List String), ∀ (bp2 : String) (i2 : Nat),
       filterArrayFrom (filterArrayFrom items bp i cfg sens).1 bp2 i2 cfg [] =
         ((filterArrayFrom items bp i cfg sens).1, [])) := by
  refine filterAttributes.mutual_induct
    (fun attrs bp cfg sens => ∀ bp2 : String,
      filterAttributes (filterAttributes attrs bp cfg sens).1 bp2 cfg [] =
        ((filterAttributes attrs bp cfg sens).1, []))
    (fun items bp i cfg sens => ∀ (bp2 : String) (i2 : Nat),
      filterArrayFrom (filterArrayFrom items bp i cfg sens).1 bp2 i2 cfg [] =
        ((filterArrayFrom items bp i cfg sens).1, []))
    ?_ ?_ ?_ ?_ ?_ ?_ ?_ ?_ ?_ ?_ ?_
  · intro bp cfg sens bp2
    simp [filterAttributes]
  · intro key value rest bp cfg sens h1 ih bp2
    have hfst : (filterAttributes ((key, value) :: rest) bp cfg sens).1
        = (key, value) :: (filterAttributes rest bp cfg sens).1 := by
      rw [filterAttributes.eq_def]
      simp [h1]
    rw [hfst, filterAttributes.eq_def]
    simp [h1, ih bp2]
  · intro key value rest bp cfg sens h1 h2 ih bp2
    have hfst : (filterAttributes ((key, value) :: rest) bp cfg sens).1
        = (filterAttributes rest bp cfg sens).1 := by
      rw [filterAttributes.eq_def]
      simp [h1, h2]
    rw [hfst]
    exact ih bp2
  · intro key value rest bp cfg sens h1 h2 h3 ih bp2
    have hfst : (filterAttributes ((key, value) :: rest) bp cfg sens).1
        = (filterAttributes rest bp cfg sens).1 := by
      rw [filterAttributes.eq_def]
      simp [h1, h2, h3]
    rw [hfst]
    exact ih bp2
  · intro key value rest bp cfg sens h1 h2 h3 h4 ih bp2
    have h4p : cfg.HonorTerraformSensitive = true ∧ key ∈ sens := by
      simpa using h4
    have hfst : (filterAttributes ((key, value) :: rest) bp cfg sens).1
        = (filterAttributes rest bp cfg sens).1 := by
      rw [filterAttributes.eq_def]
      simp [h1, h2, h3, h4p]
    rw [hfst]
    exact ih bp2
  · intro key rest bp cfg sens attrPath h1 h2 h3 h4 fields ih ihf bp2
    have h4n : ¬(cfg.HonorTerraformSensitive = true ∧ key ∈ sens) := by
      simpa using h4
    have hfst : (filterAttributes ((key, JValue.obj fields) :: rest) bp cfg sens).1
        = (key, JValue.obj (filterAttributes fields (bp ++ "." ++ key) cfg sens).1)
            :: (filterAttributes rest bp cfg sens).1 := by
      rw [filterAttributes.eq_def]
      simp [h1, h2, h3, h4n]
    rw [hfst, filterAttributes.eq_def]
    simp [h1, h2, h3, ih bp2, ihf (bp2 ++ "." ++ key)]
  · intro key rest bp cfg sens attrPath h1 h2 h3 h4 items ih ihi bp2
    have h4n : ¬(cfg.HonorTerraformSensitive = true ∧ key ∈ sens) := by
      simpa using h4
    have hfst : (filterAttributes ((key, JValue.arr items) :: rest) bp cfg sens).1
        = (key, JValue.arr (filterArrayFrom items (bp ++ "." ++ key) 0 cfg sens).1)
            :: (filterAttributes rest bp cfg sens).1 := by
      rw [filterAttributes.eq_def]
      simp [h1, h2, h3, h4n]
    rw [hfst, filterAttributes.eq_def]
    simp [h1, h2, h3, ih bp2, ihi (bp2 ++ "." ++ key) 0]
  · intro key rest bp cfg sens h1 h2 h3 h4 v hobj harr ih bp2
    have h4n : ¬(cfg.HonorTerraformSensitive = true ∧ key ∈ sens) := by
      simpa using h4
    cases v with
    | obj fields => exact absurd rfl (hobj fields)
    | arr items => exact absurd rfl (harr items)
    | null =>
      have hfst : (filterAttributes ((key, JValue.null) :: rest) bp cfg sens).1
          = (key, JValue.null) :: (filterAttributes rest bp cfg sens).1 := by
        rw [filterAttributes.eq_def]
        simp [h1, h2, h3, h4n]
      rw [hfst, filterAttributes.eq_def]
      simp [h1, h2, h3, ih bp2]
    | bool b =>
      have hfst : (filterAttributes ((key, JValue.bool b) :: rest) bp cfg sens).1
          = (key, JValue.bool b) :: (filterAttributes rest bp cfg sens).1 := by
        rw [filterAttributes.eq_def]
        simp [h1, h2, h3, h4n]
      rw [hfst, filterAttributes.eq_def]
      simp [h1, h2, h3, ih bp2]
    | num n =>
      have hfst : (filterAttributes ((key, JValue.num n) :: rest) bp cfg sens).1
          = (key, JValue.num n) :: (filterAttributes rest bp cfg sens).1 := by
        rw [filterAttributes.eq_def]
        simp [h1, h2, h3, h4n]
      rw [hfst, filterAttributes.eq_def]
      simp [h1, h2, h3, ih bp2]
    | str s =>
      have hfst : (filterAttributes ((key, JValue.str s) :: rest) bp cfg sens).1
          = (key, JValue.str s) :: (filterAttributes rest bp cfg sens).1 := by
        rw [filterAttributes.eq_def]
        simp [h1, h2, h3, h4n]
      rw [hfst, filterAttributes.eq_def]
      simp [h1, h2, h3, ih bp2]
  · intro bp i cfg sens bp2 i2
    simp [filterArrayFrom]
  · intro rest bp i cfg sens itemPath fields ih ihf bp2 i2
    have hfst : (filterArrayFrom (JValue.obj fields :: rest) bp i cfg sens).1
        = JValue.obj (filterAttributes fields (bp ++ "[" ++ toString i ++ "]") cfg sens).1
            :: (filterArrayFrom rest bp (i + 1) cfg sens).1 := by
      rw [filterArrayFrom.eq_def]
    rw [hfst, filterArrayFrom.eq_def]
    simp [ih bp2 (i2 + 1), ihf (bp2 ++ "[" ++ toString i2 ++ "]")]
  · intro rest bp i cfg sens v hobj ih bp2 i2
    cases v with
    | obj fields => exact absurd rfl (hobj fields)
    | null =>
      have hfst : (filterArrayFrom (JValue.null :: rest) bp i cfg sens).1
          = JValue.null :: (filterArrayFrom rest bp (i + 1) cfg sens).1 := by
        rw [filterArrayFrom.eq_def]
      rw [hfst, filterArrayFrom.eq_def]
      simp [ih bp2 (i2 + 1)]
    | bool b =>
      have hfst : (filterArrayFrom (JValue.bool b :: rest) bp i cfg sens).1
          = JValue.bool b :: (filterArrayFrom rest bp (i + 1) cfg sens).1 := by
        rw [filterArrayFrom.eq_def]
      rw [hfst, filterArrayFrom.eq_def]
      simp [ih bp2 (i2 + 1)]
    | num n =>
      have hfst : (filterArrayFrom (JValue.num n :: rest) bp i cfg sens).1
          = JValue.num n :: (filterArrayFrom rest bp (i + 1) cfg sens).1 := by
        rw [filterArrayFrom.eq_def]
      rw [hfst, filterArrayFrom.eq_def]
      simp [ih bp2 (i2 + 1)]
    | str s =>
      have hfst : (filterArrayFrom (JValue.str s :: rest) bp i cfg sens).1
          = JValue.str s :: (filterArrayFrom rest bp (i + 1) cfg sens).1 := by
        rw [filterArrayFrom.eq_def]
      rw [hfst, filterArrayFrom.eq_def]
      simp [ih bp2 (i2 + 1)]
    | arr items =>
      have hfst : (filterArrayFrom (JValue.arr items :: rest) bp i cfg sens).1
          = JValue.arr items :: (filterArrayFrom rest bp (i + 1) cfg sens).1 := by
        rw [filterArrayFrom.eq_def]
      rw [hfst, filterArrayFrom.eq_def]
      simp [ih bp2 (i2 + 1)]

/-- One filtering step on a cons cell either drops the head key or keeps
exactly one entry for it in front of the filtered tail. -/
theorem filterAttributes_cons_tail :
    ∀ (k : String) (v : JValue) (rest : List (String × JValue)) (bp : String)
      (cfg : MergedConfig) (sens : List String),
      (filterAttributes ((k, v) :: rest) bp cfg sens).1
          = (filterAttributes rest bp cfg sens).1 ∨
      ∃ w, (filterAttributes ((k, v) :: rest) bp cfg sens).1
          = w :: (filterAttributes rest bp cfg sens).1 := by
  intro k v rest bp cfg sens
  rw [filterAttributes.eq_def]
  by_cases c1 : isPreserved k cfg.PreserveAttributes = true
  · exact Or.inr ⟨(k, v), by simp [c1]⟩
  by_cases c2 : (AttributeMatchingPattern k cfg.PlatformOmitAttributes).2 = true
  · exact Or.inl (by simp [c1, c2])
  by_cases c3 : (AttributeMatchingPattern k cfg.OmitAttributes).2 = true
  · exact Or.inl (by simp [c1, c2, c3])
  by_cases c4 : (cfg.HonorTerraformSensitive && sens.contains k) = true
  · have c4p : cfg.HonorTerraformSensitive = true ∧ k ∈ sens := by simpa using c4
    exact Or.inl (by simp [c1, c2, c3, c4p])
  have c4n : ¬(cfg.HonorTerraformSensitive = true ∧ k ∈ sens) := by simpa using c4
  cases v with
  | obj fields =>
    exact Or.inr ⟨(k, JValue.obj (filterAttributes fields (bp ++ "." ++ k) cfg sens).1),
      by simp [c1, c2, c3, c4n]⟩
  | arr items =>
    exact Or.inr ⟨(k, JValue.arr (filterArrayFrom items (bp ++ "." ++ k) 0 cfg sens).1),
      by simp [c1, c2, c3, c4n]⟩
  | null => exact Or.inr ⟨(k, JValue.null), by simp [c1, c2, c3, c4n]⟩
  | bool b => exact Or.inr ⟨(k, JValue.bool b), by simp [c1, c2, c3, c4n]⟩
  | num n => exact Or.inr ⟨(k, JValue.num n), by simp [c1, c2, c3, c4n]⟩
  | str s => exact Or.inr ⟨(k, JValue.str s), by simp [c1, c2, c3, c4n]⟩

/-- A preserved key's entry survives attribute filtering with its value
verbatim. -/
theorem filterAttributes_preserved_mem :
    ∀ (attrs : List (String × JValue)) (bp : String) (cfg : MergedConfig)
      (sens : List String) (key : String) (value : JValue),
      isPreserved key cfg.PreserveAttributes = true →
      (key, value) ∈ attrs →
      (key, value) ∈ (filterAttributes attrs bp cfg sens).1 := by
  intro attrs
  induction attrs with
  | nil =>
    intro bp cfg sens key value _ hmem
    simp at hmem
  | cons hd tl ih =>
    intro bp cfg sens key value hpres hmem
    rcases List.mem_cons.mp hmem with heq | htl
    · subst heq
      rw [filterAttributes.eq_def]
      simp [hpres]
    · obtain ⟨k0, v0⟩ := hd
      rcases filterAttributes_cons_tail k0 v0 tl bp cfg sens with hdrop | ⟨w, hkeep⟩
      · rw [hdrop]
        exact ih bp cfg sens key value hpres htl
      · rw [hkeep]
        exact List.mem_cons_of_mem w (ih bp cfg sens key value hpres htl)

/-- C1 (amended): within attribute filtering — resource instance
attributes at every nesting depth, plan before/after trees and
planned-values resource trees — a key matched by a preserve pattern is
never omitted by any omit source (every omission's final path key is
unpreserved) and its entry is kept with its value verbatim. The original
claim's extension to top-level state outputs, plan variables and
planned-values outputs is false: those checks never consult the preserve
list (see the counterexample). -/
theorem C1_preserve_overrides :
    ∀ (attrs : List (String × JValue)) (bp : String) (cfg : MergedConfig)
      (sens : List String),
      (∀ o ∈ (filterAttributes attrs bp cfg sens).2,
        ∃ p k, o.Path = p ++ "." ++ k ∧
          isPreserved k cfg.PreserveAttributes = false) ∧
      (∀ (key : String) (value : JValue),
        isPreserved key cfg.PreserveAttributes = true →
        (key, value) ∈ attrs →
        (key, value) ∈ (filterAttributes attrs bp cfg sens).1) := by
  intro attrs bp cfg sens
  constructor
  · intro o ho
    exact (filterAttributes_omissions_shape.1 attrs bp cfg sens o ho).2
  · intro key value hpres hmem
    exact filterAttributes_preserved_mem attrs bp cfg sens key value hpres hmem

/-- C1 witness: under a policy that both omits and preserves `password`,
a `password` attribute survives filtering. -/
theorem C1_witness :
    ("password", JValue.str "x") ∈
      (filterAttributes [("password", JValue.str "x")] "r" cfgPreserveOmit []).1 :=
  (C1_preserve_overrides [("password", JValue.str "x")] "r" cfgPreserveOmit []).2
    "password" (JValue.str "x") (by decide) (by simp)

/-- C1 counterexample: the claim as stated is false for top-level state
outputs. Under a policy whose preserve list contains `password`, the state
output named `password` is still omitted by the project omit-pattern
source, because `filterOutputs` never consults the preserve list. -/
theorem C1_counterexample :
    isPreserved "password" cfgPreserveOmit.PreserveAttributes = true ∧
    (Filter stateOutputOnly cfgPreserveOmit).Omissions
      = [⟨"outputs.password", patternReason "password", "attribute", false⟩] ∧
    (Filter stateOutputOnly cfgPreserveOmit).FilteredState.Outputs = some [] := by
  refine ⟨by decide, ?_, ?_⟩ <;> rfl

/-- C3 (amended): a key matching a preserve pattern is kept together with
its value verbatim, and filtering does not recurse into the preserved
key's subtree at all: the step contributes no omissions and no
modification, so descendants that match omit patterns or sensitive
markers are emitted unchanged (the original claim's "recursion into the
preserved subtree still applies" is refuted by the counterexample). -/
theorem C3_preserved_no_recursion :
    ∀ (key : String) (value : JValue) (rest : List (String × JValue))
      (bp : String) (cfg : MergedConfig) (sens : List String),
      isPreserved key cfg.PreserveAttributes = true →
      filterAttributes ((key, value) :: rest) bp cfg sens
        = ((key, value) :: (filterAttributes rest bp cfg sens).1,
           (filterAttributes rest bp cfg sens).2) := by
  intro key value rest bp cfg sens hpres
  rw [filterAttributes.eq_def]
  simp [hpres]

/-- C3 witness: a preserved `keep` object containing a `password`
descendant passes through filtering whole. -/
theorem C3_witness :
    filterAttributes attrsPreservedSubtree "r" cfgPreserveKeep []
      = (attrsPreservedSubtree, []) := by
  have h := C3_preserved_no_recursion "keep"
    (JValue.obj [("password", JValue.str "x")]) [] "r" cfgPreserveKeep []
    (by decide)
  simpa [attrsPreservedSubtree, filterAttributes] using h

/-- C3 counterexample: the descendant key `password` inside the preserved
`keep` subtree matches an omit pattern, yet filtering emits the subtree
unchanged and records no omission — the same decision rules are not
applied to descendants of a preserved key. -/
theorem C3_counterexample :
    AttributeContainsPattern "password" cfgPreserveKeep.OmitAttributes = true ∧
    filterAttributes attrsPreservedSubtree "r" cfgPreserveKeep []
      = (attrsPreservedSubtree, []) := by
  constructor
  · decide
  · show filterAttributes
        [("keep", JValue.obj [("password", JValue.str "x")])] "r"
        cfgPreserveKeep [] = (attrsPreservedSubtree, [])
    rw [filterAttributes.eq_def]
    simp [show isPreserved "keep" cfgPreserveKeep.PreserveAttributes = true
            from by decide,
          filterAttributes, attrsPreservedSubtree]

/-- C5: in all three resource loops (state resources, plan
resource_changes, planned-values resources), a resource whose type is in
both the platform and the project/default omit-type sets and which is not
taken by the data-source rule is dropped wholesale with exactly one
resource-kind omission record carrying `fromPlatform = true` — the
platform check precedes the project/default check. -/
theorem C5_platform_type_precedence :
    (∀ (cfg : MergedConfig) (r : Resource) (rest : List Resource),
      ResourceTypeMatches r.«Type» cfg.PlatformOmitResourceTypes = true →
      ResourceTypeMatches r.«Type» cfg.OmitResourceTypes = true →
      (cfg.OmitDataSources && r.Mode == "data") = false →
      filterResources cfg (r :: rest)
        = { filterResources cfg rest with
            omissions := ⟨formatResourcePath r, typeReason r.«Type»,
              "resource", true⟩ :: (filterResources cfg rest).omissions
            omittedResources :=
              (filterResources cfg rest).omittedResources + 1 }) ∧
    (∀ (cfg : MergedConfig) (rc : ResourceChange)
       (rest : List ResourceChange),
      ResourceTypeMatches rc.«Type» cfg.PlatformOmitResourceTypes = true →
      ResourceTypeMatches rc.«Type» cfg.OmitResourceTypes = true →
      (cfg.OmitDataSources && rc.Mode == "data") = false →
      filterResourceChanges cfg (rc :: rest)
        = ((filterResourceChanges cfg rest).1,
           ⟨rc.Address, typeReason rc.«Type», "resource", true⟩
             :: (filterResourceChanges cfg rest).2.1,
           (filterResourceChanges cfg rest).2.2.1 + 1,
           (filterResourceChanges cfg rest).2.2.2.1,
           (filterResourceChanges cfg rest).2.2.2.2)) ∧
    (∀ (cfg : MergedConfig) (pr : PlannedResource)
       (rest : List PlannedResource),
      ResourceTypeMatches pr.«Type» cfg.PlatformOmitResourceTypes = true →
      ResourceTypeMatches pr.«Type» cfg.OmitResourceTypes = true →
      (cfg.OmitDataSources && pr.Mode == "data") = false →
      filterPlannedResources cfg (pr :: rest)
        = ((filterPlannedResources cfg rest).1,
           ⟨pr.Address, typeReason pr.«Type», "resource", true⟩
             :: (filterPlannedResources cfg rest).2.1,
           (filterPlannedResources cfg rest).2.2.1 + 1,
           (filterPlannedResources cfg rest).2.2.2)) := by
  refine ⟨?_, ?_, ?_⟩
  · intro cfg r rest hplat hproj hdata
    simp [filterResources, hdata, hplat]
  · intro cfg rc rest hplat hproj hdata
    simp [filterResourceChanges, hdata, hplat]
  · intro cfg pr rest hplat hproj hdata
    simp [filterPlannedResources, hdata, hplat]

/-- C5 witness: a managed resource of type `shared_type`, present in both
omit-type sets of `cfgSharedType`, is dropped with a single
platform-attributed resource omission. -/
theorem C5_witness :
    filterResources cfgSharedType [resourceSharedType]
      = { resources := [],
          omissions := [⟨"shared_type.r", typeReason "shared_type",
            "resource", true⟩],
          omittedResources := 1, omittedAttributes := 0,
          totalAttributes := 0 } := by
  have h := C5_platform_type_precedence.1 cfgSharedType resourceSharedType []
    (by decide) (by decide) (by decide)
  rw [h]
  simp [filterResources, resourceSharedType, formatResourcePath]

/-- Counting a kind distributes over list append. -/
theorem countKind_append (t : String) (a b : List OmittedField) :
    countKind t (a ++ b) = countKind t a + countKind t b := by
  simp [countKind, List.filter_append]

/-- Counting the kind every record of a list has gives its length. -/
theorem countKind_all_eq {t : String} :
    ∀ {l : List OmittedField}, (∀ o ∈ l, o.«Type» = t) →
      countKind t l = l.length := by
  intro l
  induction l with
  | nil => intro _; rfl
  | cons hd tl ih =>
    intro h
    have hhd : (hd.«Type» == t) = true := by
      simp [h hd (List.mem_cons_self hd tl)]
    have htl := ih (fun o ho => h o (List.mem_cons_of_mem hd ho))
    simp only [countKind, List.filter_cons, hhd, if_true, List.length_cons]
    simp only [countKind] at htl
    rw [htl]

/-- Counting a kind no record of a list has gives zero. -/
theorem countKind_all_ne {t s : String} (hne : t ≠ s) :
    ∀ {l : List OmittedField}, (∀ o ∈ l, o.«Type» = t) →
      countKind s l = 0 := by
  intro l
  induction l with
  | nil => intro _; rfl
  | cons hd tl ih =>
    intro h
    have hhd : (hd.«Type» == s) = false := by
      rw [h hd (List.mem_cons_self hd tl)]
      simpa using hne
    have htl := ih (fun o ho => h o (List.mem_cons_of_mem hd ho))
    simp only [countKind, List.filter_cons, hhd, Bool.false_eq_true,
      if_false]
    simp only [countKind] at htl
    rw [htl]

/-- Every omission of `filterOutputs` has kind `attribute`. -/
theorem filterOutputs_all_attr :
    ∀ (outs : List (String × JValue)) (cfg : MergedConfig),
      ∀ o ∈ (filterOutputs outs cfg).2, o.«Type» = "attribute" := by
  intro outs cfg
  induction outs with
  | nil => simp [filterOutputs]
  | cons hd tl ih =>
    obtain ⟨name, out⟩ := hd
    by_cases c1 : (AttributeMatchingPattern name cfg.OmitAttributes).2 = true
    · intro o ho
      simp only [filterOutputs, c1, if_true, List.mem_cons] at ho
      rcases ho with rfl | ho
      · rfl
      · exact ih o ho
    · by_cases c2 : outputMarkedSensitive out = true
      · intro o ho
        simp only [filterOutputs, c1, c2, if_true, if_false,
          Bool.false_eq_true, List.mem_cons] at ho
        rcases ho with rfl | ho
        · rfl
        · exact ih o ho
      · intro o ho
        simp only [filterOutputs, c1, c2, if_false,
          Bool.false_eq_true] at ho
        exact ih o ho

/-- Every omission of `filterVariables` has kind `attribute`. -/
theorem filterVariables_all_attr :
    ∀ (vars : List (String × JValue)) (cfg : MergedConfig),
      ∀ o ∈ (filterVariables cfg vars).2, o.«Type» = "attribute" := by
  intro vars cfg
  induction vars with
  | nil => simp [filterVariables]
  | cons hd tl ih =>
    obtain ⟨name, v⟩ := hd
    by_cases c1 : (AttributeMatchingPattern name cfg.OmitAttributes).2 = true
    · intro o ho
      simp only [filterVariables, c1, if_true, List.mem_cons] at ho
      rcases ho with rfl | ho
      · rfl
      · exact ih o ho
    · intro o ho
      simp only [filterVariables, c1, if_false, Bool.false_eq_true] at ho
      exact ih o ho

/-- Every omission of `filterPlannedOutputs` has kind `attribute`. -/
theorem filterPlannedOutputs_all_attr :
    ∀ (outs : List (String × JValue)) (cfg : MergedConfig),
      ∀ o ∈ (filterPlannedOutputs cfg outs).2, o.«Type» = "attribute" := by
  intro outs cfg
  induction outs with
  | nil => simp [filterPlannedOutputs]
  | cons hd tl ih =>
    obtain ⟨name, v⟩ := hd
    by_cases c1 : (AttributeMatchingPattern name cfg.PlatformOmitAttributes).2 = true
    · intro o ho
      simp only [filterPlannedOutputs, c1, if_true, List.mem_cons] at ho
      rcases ho with rfl | ho
      · rfl
      · exact ih o ho
    · by_cases c2 : (AttributeMatchingPattern name cfg.OmitAttributes).2 = true
      · intro o ho
        simp only [filterPlannedOutputs, c1, c2, if_true, if_false,
          Bool.false_eq_true, List.mem_cons] at ho
        rcases ho with rfl | ho
        · rfl
        · exact ih o ho
      · intro o ho
        simp only [filterPlannedOutputs, c1, c2, if_false,
          Bool.false_eq_true] at ho
        exact ih o ho

/-- Every omission of `filterInstances` has kind `attribute`. -/
theorem filterInstances_all_attr :
    ∀ (insts : List Instance) (cfg : MergedConfig) (rp : String)
      (n i : Nat),
      ∀ o ∈ (filterInstances cfg rp n i insts).2.1, o.«Type» = "attribute" := by
  intro insts
  induction insts with
  | nil =>
    intro cfg rp n i o ho
    simp [filterInstances] at ho
  | cons hd tl ih =>
    intro cfg rp n i o ho
    simp only [filterInstances, List.mem_append] at ho
    rcases ho with ho | ho
    · exact (filterAttributes_omissions_shape.1 _ _ _ _ o ho).1
    · exact ih cfg rp n (i + 1) o ho

/-- The state resource loop keeps its two omitted counters equal to the
per-kind record counts of its omission list. -/
theorem filterResources_counts :
    ∀ (cfg : MergedConfig) (rs : List Resource),
      (filterResources cfg rs).omittedResources
          = countKind "resource" (filterResources cfg rs).omissions ∧
      (filterResources cfg rs).omittedAttributes
          = countKind "attribute" (filterResources cfg rs).omissions := by
  intro cfg rs
  induction rs with
  | nil => exact ⟨rfl, rfl⟩
  | cons r rest ih =>
    by_cases c1 : (cfg.OmitDataSources && r.Mode == "data") = true
    · simp only [filterResources, c1, if_true]
      constructor
      · simp [countKind, List.filter_cons, ih.1, Nat.add_comm]
      · simpa [countKind, List.filter_cons] using ih.2
    · by_cases c2 : ResourceTypeMatches r.«Type» cfg.PlatformOmitResourceTypes = true
      · simp only [filterResources, c1, c2, if_true, if_false, Bool.false_eq_true]
        constructor
        · simp [countKind, List.filter_cons, ih.1, Nat.add_comm]
        · simpa [countKind, List.filter_cons] using ih.2
      · by_cases c3 : ResourceTypeMatches r.«Type» cfg.OmitResourceTypes = true
        · simp only [filterResources, c1, c2, c3, if_true, if_false,
            Bool.false_eq_true]
          constructor
          · simp [countKind, List.filter_cons, ih.1, Nat.add_comm]
          · simpa [countKind, List.filter_cons] using ih.2
        · simp only [filterResources, c1, c2, c3, if_false, Bool.false_eq_true]
          have hall := filterInstances_all_attr r.Instances cfg
            (formatResourcePath r) r.Instances.length 0
          constructor
          · rw [countKind_append, countKind_all_ne (by decide) hall, ih.1]
            omega
          · rw [countKind_append, countKind_all_eq hall, ih.2]

/-- `Filter` keeps its two omitted counters equal to the per-kind record
counts of its omission list. -/
theorem Filter_counts :
    ∀ (state : TerraformState) (cfg : MergedConfig),
      (Filter state cfg).Summary.OmittedResources
          = countKind "resource" (Filter state cfg).Omissions ∧
      (Filter state cfg).Summary.OmittedAttributes
          = countKind "attribute" (Filter state cfg).Omissions := by
  intro state cfg
  have hres := filterResources_counts cfg state.Resources
  cases houts : state.Outputs with
  | none =>
    simp only [Filter, houts]
    constructor
    · simpa [countKind] using hres.1
    · simpa [countKind] using hres.2
  | some outputs =>
    have hall := filterOutputs_all_attr outputs cfg
    simp only [Filter, houts]
    constructor
    · rw [countKind_append, countKind_all_ne (by decide) hall]
      simpa using hres.1
    · rw [countKind_append, countKind_all_eq hall]
      simpa using hres.2

/-- The resource_changes loop keeps its two omitted counters equal to the
per-kind record counts of its omission list. -/
theorem filterResourceChanges_counts :
    ∀ (cfg : MergedConfig) (rcs : List ResourceChange),
      (filterResourceChanges cfg rcs).2.2.1
          = countKind "resource" (filterResourceChanges cfg rcs).2.1 ∧
      (filterResourceChanges cfg rcs).2.2.2.1
          = countKind "attribute" (filterResourceChanges cfg rcs).2.1 := by
  intro cfg rcs
  induction rcs with
  | nil => exact ⟨rfl, rfl⟩
  | cons rc rest ih =>
    by_cases c1 : (cfg.OmitDataSources && rc.Mode == "data") = true
    · simp only [filterResourceChanges, c1, if_true]
      constructor
      · simp [countKind, List.filter_cons, ih.1, Nat.add_comm]
      · simpa [countKind, List.filter_cons] using ih.2
    · by_cases c2 : ResourceTypeMatches rc.«Type» cfg.PlatformOmitResourceTypes = true
      · simp only [filterResourceChanges, c1, c2, if_true, if_false,
          Bool.false_eq_true]
        constructor
        · simp [countKind, List.filter_cons, ih.1, Nat.add_comm]
        · simpa [countKind, List.filter_cons] using ih.2
      · by_cases c3 : ResourceTypeMatches rc.«Type» cfg.OmitResourceTypes = true
        · simp only [filterResourceChanges, c1, c2, c3, if_true, if_false,
            Bool.false_eq_true]
          constructor
          · simp [countKind, List.filter_cons, ih.1, Nat.add_comm]
          · simpa [countKind, List.filter_cons] using ih.2
        · cases hch : rc.Change with
          | none =>
            simp only [filterResourceChanges, c1, c2, c3, hch, if_false,
              Bool.false_eq_true]
            exact ih
          | some ch =>
            cases hb : ch.Before with
            | none =>
              cases ha : ch.After with
              | none =>
                simp only [filterResourceChanges, c1, c2, c3, hch, hb, ha,
                  if_false, Bool.false_eq_true]
                simpa using ih
              | some a =>
                have hall : ∀ o ∈ (filterAttributes a (rc.Address ++ ".after")
                    cfg (parseSensitiveFromPlan ch.BeforeSensitive
                      ch.AfterSensitive)).2, o.«Type» = "attribute" :=
                  fun o ho => (filterAttributes_omissions_shape.1 _ _ _ _ o ho).1
                simp only [filterResourceChanges, c1, c2, c3, hch, hb, ha,
                  if_false, Bool.false_eq_true, List.nil_append,
                  List.length_nil]
                constructor
                · rw [countKind_append, countKind_all_ne (by decide) hall,
                    ih.1]
                  omega
                · rw [countKind_append, countKind_all_eq hall, ih.2]
                  omega
            | some b =>
              have hallb : ∀ o ∈ (filterAttributes b (rc.Address ++ ".before")
                  cfg (parseSensitiveFromPlan ch.BeforeSensitive
                    ch.AfterSensitive)).2, o.«Type» = "attribute" :=
                fun o ho => (filterAttributes_omissions_shape.1 _ _ _ _ o ho).1
              cases ha : ch.After with
              | none =>
                simp only [filterResourceChanges, c1, c2, c3, hch, hb, ha,
                  if_false, Bool.false_eq_true, List.nil_append,
                  List.append_nil, List.length_nil]
                constructor
                · rw [countKind_append, countKind_all_ne (by decide) hallb,
                    ih.1]
                  omega
                · rw [countKind_append, countKind_all_eq hallb, ih.2]
                  omega
              | some a =>
                have halla : ∀ o ∈ (filterAttributes a (rc.Address ++ ".after")
                    cfg (parseSensitiveFromPlan ch.BeforeSensitive
                      ch.AfterSensitive)).2, o.«Type» = "attribute" :=
                  fun o ho => (filterAttributes_omissions_shape.1 _ _ _ _ o ho).1
                simp only [filterResourceChanges, c1, c2, c3, hch, hb, ha,
                  if_false, Bool.false_eq_true]
                constructor
                · rw [countKind_append, countKind_append,
                    countKind_all_ne (by decide) hallb,
                    countKind_all_ne (by decide) halla, ih.1]
                  omega
                · rw [countKind_append, countKind_append,
                    countKind_all_eq hallb, countKind_all_eq halla, ih.2]

/-- The planned-resources loop keeps its two omitted counters equal to
the per-kind record counts of its omission list. -/
theorem filterPlannedResources_counts :
    ∀ (cfg : MergedConfig) (prs : List PlannedResource),
      (filterPlannedResources cfg prs).2.2.1
          = countKind "resource" (filterPlannedResources cfg prs).2.1 ∧
      (filterPlannedResources cfg prs).2.2.2
          = countKind "attribute" (filterPlannedResources cfg prs).2.1 := by
  intro cfg prs
  induction prs with
  | nil => exact ⟨rfl, rfl⟩
  | cons pr rest ih =>
    by_cases c1 : (cfg.OmitDataSources && pr.Mode == "data") = true
    · simp only [filterPlannedResources, c1, if_true]
      constructor
      · simp [countKind, List.filter_cons, ih.1, Nat.add_comm]
      · simpa [countKind, List.filter_cons] using ih.2
    · by_cases c2 : ResourceTypeMatches pr.«Type» cfg.PlatformOmitResourceTypes = true
      · simp only [filterPlannedResources, c1, c2, if_true, if_false,
          Bool.false_eq_true]
        constructor
        · simp [countKind, List.filter_cons, ih.1, Nat.add_comm]
        · simpa [countKind, List.filter_cons] using ih.2
      · by_cases c3 : ResourceTypeMatches pr.«Type» cfg.OmitResourceTypes = true
        · simp only [filterPlannedResources, c1, c2, c3, if_true, if_false,
            Bool.false_eq_true]
          constructor
          · simp [countKind, List.filter_cons, ih.1, Nat.add_comm]
          · simpa [countKind, List.filter_cons] using ih.2
        · simp only [filterPlannedResources, c1, c2, c3, if_false,
            Bool.false_eq_true]
          have hall : ∀ o ∈ (filterAttributes pr.Values pr.Address cfg
              (parseSensitiveFromPlan pr.SensitiveValues JValue.null)).2,
              o.«Type» = "attribute" :=
            fun o ho => (filterAttributes_omissions_shape.1 _ _ _ _ o ho).1
          constructor
          · rw [countKind_append, countKind_all_ne (by decide) hall, ih.1]
            omega
          · rw [countKind_append, countKind_all_eq hall, ih.2]

/-- The planned-module recursion keeps its two omitted counters equal to
the per-kind record counts of its omission list. -/
theorem filterPlannedModule_counts :
    ∀ (cfg : MergedConfig),
      (∀ (m : PlannedModule),
        (filterPlannedModule cfg m).2.2.1
            = countKind "resource" (filterPlannedModule cfg m).2.1 ∧
        (filterPlannedModule cfg m).2.2.2
            = countKind "attribute" (filterPlannedModule cfg m).2.1) ∧
      (∀ (ms : List PlannedModule),
        (filterPlannedModules cfg ms).2.2.1
            = countKind "resource" (filterPlannedModules cfg ms).2.1 ∧
        (filterPlannedModules cfg ms).2.2.2
            = countKind "attribute" (filterPlannedModules cfg ms).2.1) := by
  intro cfg
  refine filterPlannedModule.mutual_induct cfg
    (fun m =>
      (filterPlannedModule cfg m).2.2.1
          = countKind "resource" (filterPlannedModule cfg m).2.1 ∧
      (filterPlannedModule cfg m).2.2.2
          = countKind "attribute" (filterPlannedModule cfg m).2.1)
    (fun ms =>
      (filterPlannedModules cfg ms).2.2.1
          = countKind "resource" (filterPlannedModules cfg ms).2.1 ∧
      (filterPlannedModules cfg ms).2.2.2
          = countKind "attribute" (filterPlannedModules cfg ms).2.1)
    ?_ ?_ ?_
  · intro resources childModules address ihm
    have hr := filterPlannedResources_counts cfg resources
    simp only [filterPlannedModule]
    constructor
    · rw [countKind_append, hr.1, ihm.1]
    · rw [countKind_append, hr.2, ihm.2]
  · exact ⟨rfl, rfl⟩
  · intro m rest ihm ihrest
    simp only [filterPlannedModules]
    constructor
    · rw [countKind_append, ihm.1, ihrest.1]
    · rw [countKind_append, ihm.2, ihrest.2]

/-- `filterPlannedValues` keeps its two omitted counters equal to the
per-kind record counts of its omission list. -/
theorem filterPlannedValues_counts :
    ∀ (pv : PlannedValues) (cfg : MergedConfig),
      (filterPlannedValues pv cfg).2.2.1
          = countKind "resource" (filterPlannedValues pv cfg).2.1 ∧
      (filterPlannedValues pv cfg).2.2.2
          = countKind "attribute" (filterPlannedValues pv cfg).2.1 := by
  intro pv cfg
  cases hroot : pv.RootModule with
  | none =>
    cases houts : pv.Outputs with
    | none => simp [filterPlannedValues, hroot, houts, countKind]
    | some outputs =>
      have hall := filterPlannedOutputs_all_attr outputs cfg
      simp only [filterPlannedValues, hroot, houts]
      constructor
      · simpa using (countKind_all_ne (by decide) hall).symm
      · simpa using (countKind_all_eq hall).symm
  | some root =>
    have hm := (filterPlannedModule_counts cfg).1 root
    cases houts : pv.Outputs with
    | none =>
      simp only [filterPlannedValues, hroot, houts]
      constructor
      · simpa using hm.1
      · simpa using hm.2
    | some outputs =>
      have hall := filterPlannedOutputs_all_attr outputs cfg
      simp only [filterPlannedValues, hroot, houts]
      constructor
      · rw [countKind_append, countKind_all_ne (by decide) hall, hm.1]
        omega
      · rw [countKind_append, countKind_all_eq hall, hm.2]

/-- `FilterPlan` keeps its two omitted counters equal to the per-kind
record counts of its omission list. -/
theorem FilterPlan_counts :
    ∀ (plan : TerraformPlan) (cfg : MergedConfig),
      (FilterPlan plan cfg).Summary.OmittedResources
          = countKind "resource" (FilterPlan plan cfg).Omissions ∧
      (FilterPlan plan cfg).Summary.OmittedAttributes
          = countKind "attribute" (FilterPlan plan cfg).Omissions := by
  intro plan cfg
  have hcr := filterResourceChanges_counts cfg plan.ResourceChanges
  have hpv : ∀ t, (t = "resource" ∨ t = "attribute") → True := fun _ _ => trivial
  cases hpvs : plan.PlannedValues with
  | none =>
    cases hps : plan.PriorState with
    | none =>
      cases hv : plan.Variables with
      | none =>
        simp only [FilterPlan, hpvs, hps, hv]
        constructor
        · simpa [countKind] using hcr.1
        · simpa [countKind] using hcr.2
      | some vars =>
        have hva := filterVariables_all_attr vars cfg
        simp only [FilterPlan, hpvs, hps, hv]
        constructor
        · rw [countKind_append, countKind_all_ne (by decide) hva, hcr.1]
          simp [countKind]
        · rw [countKind_append, countKind_all_eq hva, hcr.2]
          simp [countKind]
    | some ps =>
      have hst := Filter_counts ps cfg
      cases hv : plan.Variables with
      | none =>
        simp only [FilterPlan, hpvs, hps, hv]
        constructor
        · rw [countKind_append, countKind_append, hcr.1, hst.1]
          simp [countKind]
        · rw [countKind_append, countKind_append, hcr.2, hst.2]
          simp [countKind]
      | some vars =>
        have hva := filterVariables_all_attr vars cfg
        simp only [FilterPlan, hpvs, hps, hv]
        constructor
        · rw [countKind_append, countKind_append, countKind_append,
            countKind_all_ne (by decide) hva, hcr.1, hst.1]
          simp [countKind]
        · rw [countKind_append, countKind_append, countKind_append,
            countKind_all_eq hva, hcr.2, hst.2]
          simp [countKind]
  | some pv =>
    have hpvc := filterPlannedValues_counts pv cfg
    cases hps : plan.PriorState with
    | none =>
      cases hv : plan.Variables with
      | none =>
        simp only [FilterPlan, hpvs, hps, hv]
        constructor
        · rw [countKind_append, hcr.1, hpvc.1]
          simp [countKind]
        · rw [countKind_append, hcr.2, hpvc.2]
          simp [countKind]
      | some vars =>
        have hva := filterVariables_all_attr vars cfg
        simp only [FilterPlan, hpvs, hps, hv]
        constructor
        · rw [countKind_append, countKind_append,
            countKind_all_ne (by decide) hva, hcr.1, hpvc.1]
          simp [countKind]
        · rw [countKind_append, countKind_append,
            countKind_all_eq hva, hcr.2, hpvc.2]
          simp [countKind]
    | some ps =>
      have hst := Filter_counts ps cfg
      cases hv : plan.Variables with
      | none =>
        simp only [FilterPlan, hpvs, hps, hv]
        constructor
        · rw [countKind_append, countKind_append, hcr.1, hpvc.1, hst.1]
          simp [countKind]
        · rw [countKind_append, countKind_append, hcr.2, hpvc.2, hst.2]
          simp [countKind]
      | some vars =>
        have hva := filterVariables_all_attr vars cfg
        simp only [FilterPlan, hpvs, hps, hv]
        constructor
        · rw [countKind_append, countKind_append, countKind_append,
            countKind_all_ne (by decide) hva, hcr.1, hpvc.1, hst.1]
          simp [countKind]
        · rw [countKind_append, countKind_append, countKind_append,
            countKind_all_eq hva, hcr.2, hpvc.2, hst.2]

/-- C10: for every `Filter` and `FilterPlan` run,
`Summary.OmittedResources` equals the number of omission records of kind
`resource` and `Summary.OmittedAttributes` the number of records of kind
`attribute`, the prior-state delegation and merge included. -/
theorem C10_counts_consistent :
    (∀ (state : TerraformState) (cfg : MergedConfig),
      (Filter state cfg).Summary.OmittedResources
          = countKind "resource" (Filter state cfg).Omissions ∧
      (Filter state cfg).Summary.OmittedAttributes
          = countKind "attribute" (Filter state cfg).Omissions) ∧
    (∀ (plan : TerraformPlan) (cfg : MergedConfig),
      (FilterPlan plan cfg).Summary.OmittedResources
          = countKind "resource" (FilterPlan plan cfg).Omissions ∧
      (FilterPlan plan cfg).Summary.OmittedAttributes
          = countKind "attribute" (FilterPlan plan cfg).Omissions) :=
  ⟨Filter_counts, FilterPlan_counts⟩

/-- `filterInstances` accumulates the recursive key count of every input
instance's attribute tree. -/
theorem filterInstances_totals :
    ∀ (insts : List Instance) (cfg : MergedConfig) (rp : String) (n i : Nat),
      (filterInstances cfg rp n i insts).2.2
        = (insts.map (fun inst => countAttributes inst.Attributes)).sum := by
  intro insts
  induction insts with
  | nil => intro cfg rp n i; rfl
  | cons hd tl ih =>
    intro cfg rp n i
    simp only [filterInstances, List.map_cons, List.sum_cons]
    rw [ih cfg rp n (i + 1)]

/-- The state resource loop's total-attributes counter equals the
input-side reference count. -/
theorem filterResources_totals :
    ∀ (cfg : MergedConfig) (rs : List Resource),
      (filterResources cfg rs).totalAttributes = stateInputAttrTotal cfg rs := by
  intro cfg rs
  induction rs with
  | nil => rfl
  | cons r rest ih =>
    by_cases c1 : (cfg.OmitDataSources && r.Mode == "data") = true
    · simp only [filterResources, stateInputAttrTotal, c1, if_true]
      omega
    · by_cases c2 : ResourceTypeMatches r.«Type» cfg.PlatformOmitResourceTypes = true
      · simp only [filterResources, stateInputAttrTotal, c1, c2, if_true,
          if_false, Bool.false_eq_true]
        omega
      · by_cases c3 : ResourceTypeMatches r.«Type» cfg.OmitResourceTypes = true
        · simp only [filterResources, stateInputAttrTotal, c1, c2, c3,
            if_true, if_false, Bool.false_eq_true]
          omega
        · simp only [filterResources, stateInputAttrTotal, c1, c2, c3,
            if_false, Bool.false_eq_true]
          rw [filterInstances_totals, ih]

/-- The resource_changes loop's total-attributes counter equals the
filtered-side reference count. -/
theorem filterResourceChanges_totals :
    ∀ (cfg : MergedConfig) (rcs : List ResourceChange),
      (filterResourceChanges cfg rcs).2.2.2.2
        = planFilteredAttrTotal cfg rcs := by
  intro cfg rcs
  induction rcs with
  | nil => rfl
  | cons rc rest ih =>
    by_cases c1 : (cfg.OmitDataSources && rc.Mode == "data") = true
    · simp only [filterResourceChanges, planFilteredAttrTotal, c1, if_true]
      omega
    · by_cases c2 : ResourceTypeMatches rc.«Type» cfg.PlatformOmitResourceTypes = true
      · simp only [filterResourceChanges, planFilteredAttrTotal, c1, c2,
          if_true, if_false, Bool.false_eq_true]
        omega
      · by_cases c3 : ResourceTypeMatches rc.«Type» cfg.OmitResourceTypes = true
        · simp only [filterResourceChanges, planFilteredAttrTotal, c1, c2,
            c3, if_true, if_false, Bool.false_eq_true]
          omega
        · cases hch : rc.Change with
          | none =>
            simp only [filterResourceChanges, planFilteredAttrTotal, c1, c2,
              c3, hch, if_false, Bool.false_eq_true]
            omega
          | some ch =>
            cases hb : ch.Before with
            | none =>
              cases ha : ch.After with
              | none =>
                simp only [filterResourceChanges, planFilteredAttrTotal, c1,
                  c2, c3, hch, hb, ha, if_false, Bool.false_eq_true]
                omega
              | some a =>
                simp only [filterResourceChanges, planFilteredAttrTotal, c1,
                  c2, c3, hch, hb, ha, if_false, Bool.false_eq_true]
                omega
            | some b =>
              cases ha : ch.After with
              | none =>
                simp only [filterResourceChanges, planFilteredAttrTotal, c1,
                  c2, c3, hch, hb, ha, if_false, Bool.false_eq_true]
                omega
              | some a =>
                simp only [filterResourceChanges, planFilteredAttrTotal, c1,
                  c2, c3, hch, hb, ha, if_false, Bool.false_eq_true]
                omega

/-- C6 (amended): for state filtering, `TotalAttributes` is the recursive
map-key count of the input attribute trees of the instances of surviving
resources (nested keys at every depth, objects inside arrays included,
scalar array elements not counted, outputs not counted); for plan
filtering, the counter is computed over the already-filtered before/after
trees of surviving resource changes — omitted keys are not counted, and
planned-values trees and variables contribute nothing (the original
claim's "input document" reading is refuted by the counterexample). -/
theorem C6_total_attributes :
    (∀ (state : TerraformState) (cfg : MergedConfig),
      (Filter state cfg).Summary.TotalAttributes
        = stateInputAttrTotal cfg state.Resources) ∧
    (∀ (plan : TerraformPlan) (cfg : MergedConfig),
      (FilterPlan plan cfg).Summary.TotalAttributes
        = planFilteredAttrTotal cfg plan.ResourceChanges) := by
  constructor
  · intro state cfg
    have h := filterResources_totals cfg state.Resources
    cases houts : state.Outputs with
    | none => simpa [Filter, houts] using h
    | some outputs => simpa [Filter, houts] using h
  · intro plan cfg
    have h := filterResourceChanges_totals cfg plan.ResourceChanges
    cases hpvs : plan.PlannedValues <;> cases hps : plan.PriorState <;>
      cases hv : plan.Variables <;>
      simpa [FilterPlan, hpvs, hps, hv] using h

/-- C6 counterexample: a plan whose single change has the one-key input
tree `{password: "x"}` (key count 1) under a policy omitting `password`
yields `TotalAttributes = 0`, because the source counts the before/after
trees after filtering — not the input document's trees. -/
theorem C6_counterexample :
    countAttributes [("password", JValue.str "x")] = 1 ∧
    (FilterPlan planOnePassword cfgOmitPassword).Summary.TotalAttributes = 0 := by
  constructor
  · simp [countAttributes]
  · have hfa : filterAttributes [("password", JValue.str "x")]
        "aws_db_instance.main.before" cfgOmitPassword
        (parseSensitiveFromPlan JValue.null JValue.null)
        = ([], [⟨"aws_db_instance.main.before.password",
                 patternReason "password", "attribute", false⟩]) := by
      rw [filterAttributes.eq_def]
      simp [show isPreserved "password" cfgOmitPassword.PreserveAttributes = false from by decide,
            show (AttributeMatchingPattern "password" cfgOmitPassword.PlatformOmitAttributes).2 = false from by decide,
            show AttributeMatchingPattern "password" cfgOmitPassword.OmitAttributes = ("password", true) from by decide,
            filterAttributes, parseSensitiveFromPlan, extractSensitive]
    simp only [cfgOmitPassword] at hfa
    simp [FilterPlan, planOnePassword, filterResourceChanges, hfa,
          cfgOmitPassword, ResourceTypeMatches, countAttributes]

/-- Re-filtering already-filtered outputs yields them unchanged with no
omissions. -/
theorem filterOutputs_refilter :
    ∀ (outs : List (String × JValue)) (cfg : MergedConfig),
      filterOutputs (filterOutputs outs cfg).1 cfg
        = ((filterOutputs outs cfg).1, []) := by
  intro outs cfg
  induction outs with
  | nil => simp [filterOutputs]
  | cons hd tl ih =>
    obtain ⟨name, out⟩ := hd
    by_cases c1 : (AttributeMatchingPattern name cfg.OmitAttributes).2 = true
    · simp only [filterOutputs, c1, if_true]
      exact ih
    · by_cases c2 : outputMarkedSensitive out = true
      · simp only [filterOutputs, c1, c2, if_true, if_false,
          Bool.false_eq_true]
        exact ih
      · simp only [filterOutputs, c1, c2, if_false, Bool.false_eq_true,
          if_true]
        rw [ih]

/-- Re-filtering already-filtered variables yields them unchanged with no
omissions. -/
theorem filterVariables_refilter :
    ∀ (vars : List (String × JValue)) (cfg : MergedConfig),
      filterVariables cfg (filterVariables cfg vars).1
        = ((filterVariables cfg vars).1, []) := by
  intro vars cfg
  induction vars with
  | nil => simp [filterVariables]
  | cons hd tl ih =>
    obtain ⟨name, v⟩ := hd
    by_cases c1 : (AttributeMatchingPattern name cfg.OmitAttributes).2 = true
    · simp only [filterVariables, c1, if_true]
      exact ih
    · simp only [filterVariables, c1, if_false, Bool.false_eq_true]
      rw [ih]

/-- Re-filtering already-filtered planned outputs yields them unchanged
with no omissions. -/
theorem filterPlannedOutputs_refilter :
    ∀ (outs : List (String × JValue)) (cfg : MergedConfig),
      filterPlannedOutputs cfg (filterPlannedOutputs cfg outs).1
        = ((filterPlannedOutputs cfg outs).1, []) := by
  intro outs cfg
  induction outs with
  | nil => simp [filterPlannedOutputs]
  | cons hd tl ih =>
    obtain ⟨name, v⟩ := hd
    by_cases c1 : (AttributeMatchingPattern name cfg.PlatformOmitAttributes).2 = true
    · simp only [filterPlannedOutputs, c1, if_true]
      exact ih
    · by_cases c2 : (AttributeMatchingPattern name cfg.OmitAttributes).2 = true
      · simp only [filterPlannedOutputs, c1, c2, if_true, if_false,
          Bool.false_eq_true]
        exact ih
      · simp only [filterPlannedOutputs, c1, c2, if_false,
          Bool.false_eq_true]
        rw [ih]

/-- Re-filtering already-filtered instances produces no omissions. -/
theorem filterInstances_refilter :
    ∀ (insts : List Instance) (cfg : MergedConfig) (rp : String)
      (n i : Nat) (rp2 : String) (n2 i2 : Nat),
      (filterInstances cfg rp2 n2 i2
        (filterInstances cfg rp n i insts).1).2.1 = [] := by
  intro insts
  induction insts with
  | nil =>
    intro cfg rp n i rp2 n2 i2
    simp [filterInstances]
  | cons hd tl ih =>
    intro cfg rp n i rp2 n2 i2
    simp only [filterInstances]
    rw [show parseSensitiveAttributes ([] : List JValue) = [] from rfl,
      filter_refilter_joint.1]
    simp only [List.nil_append]
    exact ih cfg rp n (i + 1) rp2 n2 (i2 + 1)

/-- Re-filtering the resource list of a state-filter pass produces no
omissions and zero omitted counters. -/
theorem filterResources_refilter :
    ∀ (cfg : MergedConfig) (rs : List Resource),
      (filterResources cfg (filterResources cfg rs).resources).omissions = [] ∧
      (filterResources cfg (filterResources cfg rs).resources).omittedResources = 0 ∧
      (filterResources cfg (filterResources cfg rs).resources).omittedAttributes = 0 := by
  intro cfg rs
  induction rs with
  | nil => refine ⟨?_, ?_, ?_⟩ <;> trivial
  | cons r rest ih =>
    by_cases c1 : (cfg.OmitDataSources && r.Mode == "data") = true
    · simp only [filterResources, c1, if_true]
      exact ih
    · by_cases c2 : ResourceTypeMatches r.«Type» cfg.PlatformOmitResourceTypes = true
      · simp only [filterResources, c1, c2, if_true, if_false,
          Bool.false_eq_true]
        exact ih
      · by_cases c3 : ResourceTypeMatches r.«Type» cfg.OmitResourceTypes = true
        · simp only [filterResources, c1, c2, c3, if_true, if_false,
            Bool.false_eq_true]
          exact ih
        · simp only [filterResources, c1, c2, c3, if_false,
            Bool.false_eq_true]
          rw [filterInstances_refilter]
          simp only [List.nil_append, List.length_nil, Nat.zero_add]
          exact ih

/-- Re-filtering a filtered state with the same policy produces no
omissions and zero omitted counters. -/
theorem Filter_refilter :
    ∀ (state : TerraformState) (cfg : MergedConfig),
      (Filter (Filter state cfg).FilteredState cfg).Omissions = [] ∧
      (Filter (Filter state cfg).FilteredState cfg).Summary.OmittedResources = 0 ∧
      (Filter (Filter state cfg).FilteredState cfg).Summary.OmittedAttributes = 0 := by
  intro state cfg
  have hres := filterResources_refilter cfg state.Resources
  cases houts : state.Outputs with
  | none =>
    simp only [Filter, houts]
    exact ⟨by simp [hres.1], hres.2.1, by simp [hres.2.2]⟩
  | some outputs =>
    simp only [Filter, houts]
    rw [filterOutputs_refilter]
    exact ⟨by simp [hres.1], hres.2.1, by simp [hres.2.2]⟩

/-- Re-filtering the resource_changes list of a plan-filter pass produces
no omissions and zero omitted counters. -/
theorem filterResourceChanges_refilter :
    ∀ (cfg : MergedConfig) (rcs : List ResourceChange),
      (filterResourceChanges cfg (filterResourceChanges cfg rcs).1).2.1 = [] ∧
      (filterResourceChanges cfg (filterResourceChanges cfg rcs).1).2.2.1 = 0 ∧
      (filterResourceChanges cfg (filterResourceChanges cfg rcs).1).2.2.2.1 = 0 := by
  intro cfg rcs
  induction rcs with
  | nil => refine ⟨?_, ?_, ?_⟩ <;> trivial
  | cons rc rest ih =>
    by_cases c1 : (cfg.OmitDataSources && rc.Mode == "data") = true
    · simp only [filterResourceChanges, c1, if_true]
      exact ih
    · by_cases c2 : ResourceTypeMatches rc.«Type» cfg.PlatformOmitResourceTypes = true
      · simp only [filterResourceChanges, c1, c2, if_true, if_false,
          Bool.false_eq_true]
        exact ih
      · by_cases c3 : ResourceTypeMatches rc.«Type» cfg.OmitResourceTypes = true
        · simp only [filterResourceChanges, c1, c2, c3, if_true, if_false,
            Bool.false_eq_true]
          exact ih
        · cases hch : rc.Change with
          | none =>
            simp only [filterResourceChanges, c1, c2, c3, hch, if_false,
              Bool.false_eq_true]
            exact ih
          | some ch =>
            cases hb : ch.Before with
            | none =>
              cases ha : ch.After with
              | none =>
                simp only [filterResourceChanges, c1, c2, c3, hch, hb, ha,
                  if_false, Bool.false_eq_true,
                  show parseSensitiveFromPlan JValue.null JValue.null = []
                    from rfl,
                  List.nil_append, List.length_nil, Nat.zero_add]
                exact ih
              | some a =>
                simp only [filterResourceChanges, c1, c2, c3, hch, hb, ha,
                  if_false, Bool.false_eq_true,
                  show parseSensitiveFromPlan JValue.null JValue.null = []
                    from rfl,
                  filter_refilter_joint.1,
                  List.nil_append, List.length_nil, Nat.zero_add]
                exact ih
            | some b =>
              cases ha : ch.After with
              | none =>
                simp only [filterResourceChanges, c1, c2, c3, hch, hb, ha,
                  if_false, Bool.false_eq_true,
                  show parseSensitiveFromPlan JValue.null JValue.null = []
                    from rfl,
                  filter_refilter_joint.1,
                  List.nil_append, List.append_nil, List.length_nil,
                  Nat.zero_add, Nat.add_zero]
                exact ih
              | some a =>
                simp only [filterResourceChanges, c1, c2, c3, hch, hb, ha,
                  if_false, Bool.false_eq_true,
                  show parseSensitiveFromPlan JValue.null JValue.null = []
                    from rfl,
                  filter_refilter_joint.1,
                  List.nil_append, List.length_nil, Nat.zero_add]
                exact ih

/-- Re-filtering the planned-resources list of a pass produces no
omissions and zero omitted counters. -/
theorem filterPlannedResources_refilter :
    ∀ (cfg : MergedConfig) (prs : List PlannedResource),
      (filterPlannedResources cfg (filterPlannedResources cfg prs).1).2.1 = [] ∧
      (filterPlannedResources cfg (filterPlannedResources cfg prs).1).2.2.1 = 0 ∧
      (filterPlannedResources cfg (filterPlannedResources cfg prs).1).2.2.2 = 0 := by
  intro cfg prs
  induction prs with
  | nil => refine ⟨?_, ?_, ?_⟩ <;> trivial
  | cons pr rest ih =>
    by_cases c1 : (cfg.OmitDataSources && pr.Mode == "data") = true
    · simp only [filterPlannedResources, c1, if_true]
      exact ih
    · by_cases c2 : ResourceTypeMatches pr.«Type» cfg.PlatformOmitResourceTypes = true
      · simp only [filterPlannedResources, c1, c2, if_true, if_false,
          Bool.false_eq_true]
        exact ih
      · by_cases c3 : ResourceTypeMatches pr.«Type» cfg.OmitResourceTypes = true
        · simp only [filterPlannedResources, c1, c2, c3, if_true, if_false,
            Bool.false_eq_true]
          exact ih
        · simp only [filterPlannedResources, c1, c2, c3, if_false,
            Bool.false_eq_true,
            show parseSensitiveFromPlan JValue.null JValue.null = []
              from rfl,
            filter_refilter_joint.1,
            List.nil_append, List.length_nil, Nat.zero_add]
          exact ih

/-- Re-filtering a filtered planned-module tree produces no omissions and
zero omitted counters. -/
theorem filterPlannedModule_refilter :
    ∀ (cfg : MergedConfig),
      (∀ (m : PlannedModule),
        (filterPlannedModule cfg (filterPlannedModule cfg m).1).2.1 = [] ∧
        (filterPlannedModule cfg (filterPlannedModule cfg m).1).2.2.1 = 0 ∧
        (filterPlannedModule cfg (filterPlannedModule cfg m).1).2.2.2 = 0) ∧
      (∀ (ms : List PlannedModule),
        (filterPlannedModules cfg (filterPlannedModules cfg ms).1).2.1 = [] ∧
        (filterPlannedModules cfg (filterPlannedModules cfg ms).1).2.2.1 = 0 ∧
        (filterPlannedModules cfg (filterPlannedModules cfg ms).1).2.2.2 = 0) := by
  intro cfg
  refine filterPlannedModule.mutual_induct cfg
    (fun m =>
      (filterPlannedModule cfg (filterPlannedModule cfg m).1).2.1 = [] ∧
      (filterPlannedModule cfg (filterPlannedModule cfg m).1).2.2.1 = 0 ∧
      (filterPlannedModule cfg (filterPlannedModule cfg m).1).2.2.2 = 0)
    (fun ms =>
      (filterPlannedModules cfg (filterPlannedModules cfg ms).1).2.1 = [] ∧
      (filterPlannedModules cfg (filterPlannedModules cfg ms).1).2.2.1 = 0 ∧
      (filterPlannedModules cfg (filterPlannedModules cfg ms).1).2.2.2 = 0)
    ?_ ?_ ?_
  · intro resources childModules address ihm
    have hr := filterPlannedResources_refilter cfg resources
    simp only [filterPlannedModule, hr.1, ihm.1, hr.2.1, ihm.2.1, hr.2.2,
      ihm.2.2, List.nil_append]
    refine ⟨?_, ?_, ?_⟩ <;> trivial
  · refine ⟨?_, ?_, ?_⟩ <;> trivial
  · intro m rest ihm ihrest
    simp only [filterPlannedModules, ihm.1, ihrest.1, ihm.2.1, ihrest.2.1,
      ihm.2.2, ihrest.2.2, List.nil_append]
    refine ⟨?_, ?_, ?_⟩ <;> trivial

/-- Re-filtering filtered planned values produces no omissions and zero
omitted counters. -/
theorem filterPlannedValues_refilter :
    ∀ (pv : PlannedValues) (cfg : MergedConfig),
      (filterPlannedValues (filterPlannedValues pv cfg).1 cfg).2.1 = [] ∧
      (filterPlannedValues (filterPlannedValues pv cfg).1 cfg).2.2.1 = 0 ∧
      (filterPlannedValues (filterPlannedValues pv cfg).1 cfg).2.2.2 = 0 := by
  intro pv cfg
  cases hroot : pv.RootModule with
  | none =>
    cases houts : pv.Outputs with
    | none => simp [filterPlannedValues, hroot, houts]
    | some outputs =>
      simp only [filterPlannedValues, hroot, houts,
        filterPlannedOutputs_refilter, List.nil_append, List.length_nil]
      refine ⟨?_, ?_, ?_⟩ <;> trivial
  | some root =>
    have hm := (filterPlannedModule_refilter cfg).1 root
    cases houts : pv.Outputs with
    | none =>
      simp only [filterPlannedValues, hroot, houts, hm.1, hm.2.1, hm.2.2,
        List.append_nil, List.length_nil, Nat.add_zero]
      refine ⟨?_, ?_, ?_⟩ <;> trivial
    | some outputs =>
      simp only [filterPlannedValues, hroot, houts,
        filterPlannedOutputs_refilter, hm.1, hm.2.1, hm.2.2,
        List.append_nil, List.nil_append, List.length_nil, Nat.add_zero]
      refine ⟨?_, ?_, ?_⟩ <;> trivial

/-- Re-filtering a filtered plan with the same policy produces no
omissions and zero omitted counters. -/
theorem FilterPlan_refilter :
    ∀ (plan : TerraformPlan) (cfg : MergedConfig),
      (FilterPlan (FilterPlan plan cfg).FilteredPlan cfg).Omissions = [] ∧
      (FilterPlan (FilterPlan plan cfg).FilteredPlan cfg).Summary.OmittedResources = 0 ∧
      (FilterPlan (FilterPlan plan cfg).FilteredPlan cfg).Summary.OmittedAttributes = 0 := by
  intro plan cfg
  have hcr := filterResourceChanges_refilter cfg plan.ResourceChanges
  cases hpvs : plan.PlannedValues with
  | none =>
    cases hps : plan.PriorState with
    | none =>
      cases hv : plan.Variables with
      | none =>
        simp only [FilterPlan, hpvs, hps, hv, hcr.1, hcr.2.1, hcr.2.2]
        refine ⟨?_, ?_, ?_⟩ <;> trivial
      | some vars =>
        simp only [FilterPlan, hpvs, hps, hv, hcr.1, hcr.2.1, hcr.2.2,
          filterVariables_refilter, List.nil_append, List.length_nil]
        refine ⟨?_, ?_, ?_⟩ <;> trivial
    | some ps =>
      have hst := Filter_refilter ps cfg
      cases hv : plan.Variables with
      | none =>
        simp only [FilterPlan, hpvs, hps, hv, hcr.1, hcr.2.1, hcr.2.2,
          hst.1, hst.2.1, hst.2.2, List.nil_append, List.length_nil]
        refine ⟨?_, ?_, ?_⟩ <;> trivial
      | some vars =>
        simp only [FilterPlan, hpvs, hps, hv, hcr.1, hcr.2.1, hcr.2.2,
          hst.1, hst.2.1, hst.2.2, filterVariables_refilter,
          List.nil_append, List.length_nil]
        refine ⟨?_, ?_, ?_⟩ <;> trivial
  | some pv =>
    have hpvr := filterPlannedValues_refilter pv cfg
    cases hps : plan.PriorState with
    | none =>
      cases hv : plan.Variables with
      | none =>
        simp only [FilterPlan, hpvs, hps, hv, hcr.1, hcr.2.1, hcr.2.2,
          hpvr.1, hpvr.2.1, hpvr.2.2, List.nil_append, List.length_nil]
        refine ⟨?_, ?_, ?_⟩ <;> trivial
      | some vars =>
        simp only [FilterPlan, hpvs, hps, hv, hcr.1, hcr.2.1, hcr.2.2,
          hpvr.1, hpvr.2.1, hpvr.2.2, filterVariables_refilter,
          List.nil_append, List.length_nil]
        refine ⟨?_, ?_, ?_⟩ <;> trivial
    | some ps =>
      have hst := Filter_refilter ps cfg
      cases hv : plan.Variables with
      | none =>
        simp only [FilterPlan, hpvs, hps, hv, hcr.1, hcr.2.1, hcr.2.2,
          hpvr.1, hpvr.2.1, hpvr.2.2, hst.1, hst.2.1, hst.2.2,
          List.nil_append, List.length_nil]
        refine ⟨?_, ?_, ?_⟩ <;> trivial
      | some vars =>
        simp only [FilterPlan, hpvs, hps, hv, hcr.1, hcr.2.1, hcr.2.2,
          hpvr.1, hpvr.2.1, hpvr.2.2, hst.1, hst.2.1, hst.2.2,
          filterVariables_refilter, List.nil_append, List.length_nil]
        refine ⟨?_, ?_, ?_⟩ <;> trivial

/-- C4: re-filtering an already-filtered state or plan document with the
same merged policy yields zero omission records: the omission list is
empty and both `OmittedResources` and `OmittedAttributes` are zero. -/
theorem C4_idempotent :
    (∀ (state : TerraformState) (cfg : MergedConfig),
      (Filter (Filter state cfg).FilteredState cfg).Omissions = [] ∧
      (Filter (Filter state cfg).FilteredState cfg).Summary.OmittedResources = 0 ∧
      (Filter (Filter state cfg).FilteredState cfg).Summary.OmittedAttributes = 0) ∧
    (∀ (plan : TerraformPlan) (cfg : MergedConfig),
      (FilterPlan (FilterPlan plan cfg).FilteredPlan cfg).Omissions = [] ∧
      (FilterPlan (FilterPlan plan cfg).FilteredPlan cfg).Summary.OmittedResources = 0 ∧
      (FilterPlan (FilterPlan plan cfg).FilteredPlan cfg).Summary.OmittedAttributes = 0) :=
  ⟨Filter_refilter, FilterPlan_refilter⟩

end Cora
